import Mathlib

/-!
Shallow embedding of the frostgate-relayer core (message queue and relayer
service orchestration) and verification of its specification claims.

Modelling conventions:
* `Uuid` is modelled as `Nat`.
* `SystemTime` is modelled as a `Nat` timestamp in whole seconds; the age
  computation `now.duration_since(queued_at).unwrap_or_default().as_secs()`
  becomes truncated subtraction `now - queued_at` (which is `0` when
  `queued_at` is in the future, matching `unwrap_or_default`).
* `HashMap<Uuid, QueuedMessage>` is modelled as an association list
  `List (Nat × QueuedMessage)`; the real hash map never holds two entries
  for one key, which appears below as a `Nodup` hypothesis where needed.
* `VecDeque<Uuid>` is modelled as `List Nat` with the front at the head.
* The chain adapters are external; their fallible operations are modelled
  as oracle functions `FrostMessage → Except String Unit`, and the calls
  the service makes to them are recorded in an explicit event trace.
-/

namespace Frostgate

/-- Chain identifier from the external SDK; the service only ever compares
it against the sentinel `Unknown` value. -/
inductive ChainId where
  | Unknown : ChainId
  | Known : Nat → ChainId
deriving DecidableEq

/-- The cross-chain message payload from the external SDK: source chain id,
destination chain id, payload bytes, optional proof bytes. -/
structure FrostMessage where
  from_chain : ChainId
  to_chain : ChainId
  payload : List Nat
  proof : Option (List Nat)
deriving DecidableEq

/-- Status of a message being relayed (types.rs). -/
inductive MessageStatus where
  | Pending : MessageStatus
  | Proving : MessageStatus
  | ReadyForSubmission : MessageStatus
  | Submitted : MessageStatus
  | Finalized : MessageStatus
  | Failed : String → MessageStatus
deriving DecidableEq

/-- A message in the relay queue (types.rs). -/
structure QueuedMessage where
  id : Nat
  message : FrostMessage
  status : MessageStatus
  queued_at : Nat
  attempts : Nat
  last_error : Option String
deriving DecidableEq

/-- Configuration for the relayer service (types.rs). -/
structure RelayerConfig where
  max_concurrent_messages : Nat
  max_retry_attempts : Nat
  retry_delay_secs : Nat
  enable_auto_pruning : Bool
  message_history_hours : Nat
deriving DecidableEq

/-- Relayer error taxonomy (error.rs); adapter and wrapped errors carry
their display text. -/
inductive RelayerError where
  | MessageNotFound : Nat → RelayerError
  | ChainAdapter : String → RelayerError
  | Prover : String → RelayerError
  | Configuration : String → RelayerError
  | Queue : String → RelayerError
  | ValidationError : String → RelayerError
  | Timeout : String → Nat → RelayerError
  | Unknown : String → RelayerError
  | Other : String → RelayerError
deriving DecidableEq

deriving instance DecidableEq for Except

/-- Queue state (queue.rs): `pending` is the ordering sequence of ids
(front at the head), `messages` the lookup map of records keyed by id. -/
structure MessageQueue where
  pending : List Nat
  messages : List (Nat × QueuedMessage)
deriving DecidableEq

/-- `HashMap::get`: first entry with the given key. -/
def lookupMsg (msgs : List (Nat × QueuedMessage)) (id : Nat) : Option QueuedMessage :=
  match msgs with
  | [] => none
  | (k, m) :: rest => if k = id then some m else lookupMsg rest id

/-- `HashMap::insert`: replace the entry for the key in place, or append. -/
def insertMsg (msgs : List (Nat × QueuedMessage)) (id : Nat) (m : QueuedMessage) :
    List (Nat × QueuedMessage) :=
  match msgs with
  | [] => [(id, m)]
  | (k, v) :: rest => if k = id then (id, m) :: rest else (k, v) :: insertMsg rest id m

/-- `MessageQueue::new`. -/
def MessageQueue.new : MessageQueue := { pending := [], messages := [] }

/-- `MessageQueue::enqueue`: push the id to the back of the ordering
sequence and insert the record into the lookup map. -/
def enqueue (q : MessageQueue) (message : QueuedMessage) : MessageQueue :=
  { pending := q.pending ++ [message.id],
    messages := insertMsg q.messages message.id message }

/-- The loop body of `MessageQueue::dequeue`: pop ids from the front,
returning the first whose stored record is `Pending` together with the
remaining sequence. -/
def dequeueAux (pnd : List Nat) (msgs : List (Nat × QueuedMessage)) :
    Option QueuedMessage × List Nat :=
  match pnd with
  | [] => (none, [])
  | id :: rest =>
    match lookupMsg msgs id with
    | some m => if m.status = MessageStatus.Pending then (some m, rest) else dequeueAux rest msgs
    | none => dequeueAux rest msgs

/-- `MessageQueue::dequeue`: returns the clone of the first pending record
(if any) and the queue state after the pops; the lookup map is untouched. -/
def dequeue (q : MessageQueue) : Option QueuedMessage × MessageQueue :=
  let (res, rest) := dequeueAux q.pending q.messages
  (res, { q with pending := rest })

/-- Whether a status is `Failed(_)` (the `matches!` test in
`update_status`). -/
def statusIsFailed (s : MessageStatus) : Bool :=
  match s with
  | MessageStatus.Failed _ => true
  | _ => false

/-- The record mutation performed by `update_status` on the found entry. -/
def applyUpdate (m : QueuedMessage) (status : MessageStatus) (error : Option String) :
    QueuedMessage :=
  { m with
    status := status
    last_error := error
    attempts := m.attempts + (if statusIsFailed status then 1 else 0) }

/-- The per-entry effect of `update_status`: mutate the entry whose key is
`id`, leave every other entry alone. -/
def updEntry (id : Nat) (status : MessageStatus) (error : Option String) :
    Nat × QueuedMessage → Nat × QueuedMessage
  | (k, m) => if k = id then (k, applyUpdate m status error) else (k, m)

/-- `MessageQueue::update_status`: mutate the entry for `id` in place if
present (`get_mut`), otherwise do nothing. -/
def update_status (q : MessageQueue) (id : Nat) (status : MessageStatus)
    (error : Option String) : MessageQueue :=
  { q with messages := q.messages.map (updEntry id status error) }

/-- `MessageQueue::get_message`: a copy of the record, if present. -/
def get_message (q : MessageQueue) (id : Nat) : Option QueuedMessage :=
  lookupMsg q.messages id

/-- The retention test of `prune_old_messages`: keep a record when its age
in whole seconds is below the threshold or its status is `Pending` or
`Proving`. -/
def shouldKeep (now max_age_hours : Nat) (m : QueuedMessage) : Bool :=
  decide (now - m.queued_at < max_age_hours * 3600) ||
    (decide (m.status = MessageStatus.Pending) || decide (m.status = MessageStatus.Proving))

/-- `MessageQueue::prune_old_messages`: drop every record failing the
retention test, and strip each dropped record's id from the ordering
sequence. `now` is the sampled current time. -/
def prune_old_messages (q : MessageQueue) (now max_age_hours : Nat) : MessageQueue :=
  { pending := q.pending.filter (fun id =>
      match lookupMsg q.messages id with
      | some m => shouldKeep now max_age_hours m
      | none => true),
    messages := q.messages.filter (fun p => shouldKeep now max_age_hours p.2) }

/-- `RelayerService::validate_message` (service.rs): purely structural
checks on the message, in source order. -/
def validate_message (message : FrostMessage) : Except RelayerError Unit :=
  if message.from_chain = ChainId.Unknown then
    Except.error (RelayerError.ValidationError "Source chain is unknown")
  else if message.to_chain = ChainId.Unknown then
    Except.error (RelayerError.ValidationError "Target chain is unknown")
  else if message.payload = [] then
    Except.error (RelayerError.ValidationError "Payload is empty")
  else
    Except.ok ()

/-- `RelayerService::handle_chain_event` (service.rs): validate the event's
message and, on success, enqueue a fresh `Pending` record with zero
attempts. `freshId` is the generated `Uuid::new_v4()`, `now` the sampled
`SystemTime::now()`. -/
def handle_chain_event (q : MessageQueue) (freshId now : Nat) (message : FrostMessage) :
    MessageQueue :=
  match validate_message message with
  | Except.error _ => q
  | Except.ok _ =>
      enqueue q
        { id := freshId
          message := message
          status := MessageStatus.Pending
          queued_at := now
          attempts := 0
          last_error := none }

/-- Observable events of one `process_messages` iteration: adapter calls
and queue mutations, in program order. -/
inductive Ev where
  | callVerify : FrostMessage → Ev
  | callSubmit : FrostMessage → Ev
  | updStatus : Nat → MessageStatus → Option String → Ev
  | pruneEv : Nat → Ev
deriving DecidableEq

/-- The trailing auto-pruning pass of `process_messages`. -/
def pruneTail (cfg : RelayerConfig) (now : Nat) (q : MessageQueue) :
    MessageQueue × List Ev :=
  if cfg.enable_auto_pruning then
    (prune_old_messages q now cfg.message_history_hours, [Ev.pruneEv cfg.message_history_hours])
  else
    (q, [])

/-- The submission phase of `process_messages`: mark the message
`ReadyForSubmission`, call the destination adapter, record the outcome,
then fall through to the pruning pass. -/
def submitPhase (cfg : RelayerConfig) (submit : FrostMessage → Except String Unit)
    (now : Nat) (q1 : MessageQueue) (msg : QueuedMessage) : MessageQueue × List Ev :=
  let q2 := update_status q1 msg.id MessageStatus.ReadyForSubmission none
  match submit msg.message with
  | Except.ok _ =>
      let q3 := update_status q2 msg.id MessageStatus.Submitted none
      let r := pruneTail cfg now q3
      (r.1, Ev.updStatus msg.id MessageStatus.ReadyForSubmission none ::
            Ev.callSubmit msg.message ::
            Ev.updStatus msg.id MessageStatus.Submitted none :: r.2)
  | Except.error e =>
      let q3 := update_status q2 msg.id (MessageStatus.Failed "Destination chain submission failed") (some e)
      let r := pruneTail cfg now q3
      (r.1, Ev.updStatus msg.id MessageStatus.ReadyForSubmission none ::
            Ev.callSubmit msg.message ::
            Ev.updStatus msg.id (MessageStatus.Failed "Destination chain submission failed") (some e) :: r.2)

/-- `RelayerService::process_messages` (service.rs), one iteration:
dequeue at most one pending message and drive it; the max-retry and
proof-verification-failure branches return early (no pruning pass),
the other paths end with the pruning pass. `verify` and `submit` are the
source and destination adapter oracles; the returned list is the trace of
adapter calls and queue mutations in program order. -/
def process_messages (cfg : RelayerConfig)
    (verify submit : FrostMessage → Except String Unit)
    (now : Nat) (q : MessageQueue) : MessageQueue × List Ev :=
  match dequeue q with
  | (some msg, q1) =>
      if cfg.max_retry_attempts ≤ msg.attempts then
        (update_status q1 msg.id (MessageStatus.Failed "Max retry attempts exceeded") none,
         [Ev.updStatus msg.id (MessageStatus.Failed "Max retry attempts exceeded") none])
      else
        match msg.message.proof with
        | some _ =>
            (match verify msg.message with
             | Except.error e =>
                 (update_status q1 msg.id (MessageStatus.Failed "Proof verification failed") (some e),
                  [Ev.callVerify msg.message,
                   Ev.updStatus msg.id (MessageStatus.Failed "Proof verification failed") (some e)])
             | Except.ok _ =>
                 let r := submitPhase cfg submit now q1 msg
                 (r.1, Ev.callVerify msg.message :: r.2))
        | none => submitPhase cfg submit now q1 msg
  | (none, q1) => pruneTail cfg now q1

/-- `RelayerService::start` (service.rs), restricted to its effect on the
running flag: error out when already running (leaving the flag as it is),
otherwise set the flag and succeed. -/
def start (running : Bool) : Except RelayerError Unit × Bool :=
  if running then
    (Except.error (RelayerError.Configuration "Service already running"), running)
  else
    (Except.ok (), true)

/-- `RelayerService::stop` (service.rs): clear the running flag. -/
def stop (running : Bool) : Bool := false

/-- One public queue operation, for stating properties over arbitrary
operation sequences. The payload of `deq` / `get` is ignored by `runOp`
(they do not change the map); `prune` carries the sampled time. -/
inductive QueueOp where
  | enq : QueuedMessage → QueueOp
  | deq : QueueOp
  | upd : Nat → MessageStatus → Option String → QueueOp
  | get : Nat → QueueOp
  | prune : Nat → Nat → QueueOp
deriving DecidableEq

/-- State transformer of one queue operation. -/
def runOp (q : MessageQueue) (op : QueueOp) : MessageQueue :=
  match op with
  | QueueOp.enq m => enqueue q m
  | QueueOp.deq => (dequeue q).2
  | QueueOp.upd id st err => update_status q id st err
  | QueueOp.get _ => q
  | QueueOp.prune now h => prune_old_messages q now h

/-- State transformer of a sequence of queue operations, first op first. -/
def runOps (q : MessageQueue) (ops : List QueueOp) : MessageQueue :=
  match ops with
  | [] => q
  | op :: rest => runOps (runOp q op) rest

/-- Whole-service state for reachability arguments: the queue plus the
ghost set of every id the watcher has ever generated (`Uuid::new_v4` never
repeats, so a fresh id is outside this set). -/
structure SysState where
  q : MessageQueue
  used : List Nat
deriving DecidableEq

/-- One iteration body of either background loop, the service's only
mutation paths: a watcher step handles one chain event with a globally
fresh id, a processor step runs `process_messages` with arbitrary adapter
outcomes. -/
inductive SStep : SysState → SysState → Prop where
  | watcher (s : SysState) (freshId now : Nat) (message : FrostMessage)
      (hfresh : freshId ∉ s.used) :
      SStep s { q := handle_chain_event s.q freshId now message, used := freshId :: s.used }
  | processor (s : SysState) (cfg : RelayerConfig)
      (verify submit : FrostMessage → Except String Unit) (now : Nat) :
      SStep s { q := (process_messages cfg verify submit now s.q).1, used := s.used }

/-- The empty starting state of a freshly constructed service. -/
def initState : SysState := { q := MessageQueue.new, used := [] }

/-- States reachable from the empty queue through the loop bodies. -/
inductive SReachable : SysState → Prop where
  | init : SReachable initState
  | step {s s' : SysState} : SReachable s → SStep s s' → SReachable s'

/-- Zero or more loop-body steps. -/
inductive SReachFrom : SysState → SysState → Prop where
  | refl (s : SysState) : SReachFrom s s
  | tail {s s' s'' : SysState} : SReachFrom s s' → SStep s' s'' → SReachFrom s s''

/-- Whether the record stored under `id` is currently `Pending` (false when
`id` is absent from the map) — the test `dequeue` applies to each popped id. -/
def pendingAt (msgs : List (Nat × QueuedMessage)) (id : Nat) : Bool :=
  match lookupMsg msgs id with
  | some m => decide (m.status = MessageStatus.Pending)
  | none => false

/-- Every stored record's `id` field equals its map key — true of every
queue built through `enqueue`/`update_status`/`prune_old_messages`, since
`enqueue` keys a record by its own id and the other operations preserve
the id field. -/
def IdKeyed (q : MessageQueue) : Prop :=
  ∀ p ∈ q.messages, p.2.id = p.1

/-- The ordering-sequence/lookup-map consistency invariant: every id in
the ordering sequence has a record in the lookup map. -/
def PendingSub (q : MessageQueue) : Prop :=
  ∀ id ∈ q.pending, (lookupMsg q.messages id).isSome = true

/-- The map has at most one entry per key — automatic for the real
`HashMap`, an explicit invariant of the association-list model. -/
def NodupKeys (q : MessageQueue) : Prop :=
  (q.messages.map Prod.fst).Nodup

/-- Every `Pending` record has zero attempts. -/
def PendAttempts (q : MessageQueue) : Prop :=
  ∀ id m, lookupMsg q.messages id = some m →
    m.status = MessageStatus.Pending → m.attempts = 0

/-- Every stored key was generated by the watcher at some point. -/
def KeysUsed (s : SysState) : Prop :=
  ∀ id m, lookupMsg s.q.messages id = some m → id ∈ s.used

/-- The record stored under `id`, if any, is not `Pending`. -/
def NotPendingAt (q : MessageQueue) (id : Nat) : Prop :=
  ∀ m, lookupMsg q.messages id = some m → m.status ≠ MessageStatus.Pending

/-- The reachable-state invariant of the running service. -/
def SInv (s : SysState) : Prop :=
  NodupKeys s.q ∧ IdKeyed s.q ∧ PendAttempts s.q ∧ KeysUsed s

/-- Concrete test fixture: a valid message without a proof. -/
def exFrost : FrostMessage :=
  { from_chain := ChainId.Known 0, to_chain := ChainId.Known 1, payload := [1], proof := none }

/-- Concrete test fixture: a valid message carrying a proof. -/
def exFrostP : FrostMessage :=
  { from_chain := ChainId.Known 0, to_chain := ChainId.Known 1, payload := [2], proof := some [7] }

/-- Fixture: a `Submitted` record keyed 10. -/
def exMsgA : QueuedMessage :=
  { id := 10, message := exFrost, status := MessageStatus.Submitted,
    queued_at := 0, attempts := 0, last_error := none }

/-- Fixture: a `Pending` record keyed 11, behind `exMsgA` in the order. -/
def exMsgB : QueuedMessage :=
  { id := 11, message := exFrost, status := MessageStatus.Pending,
    queued_at := 5, attempts := 0, last_error := none }

/-- Fixture queue: a non-pending id in front of a pending one. -/
def exQ1 : MessageQueue :=
  { pending := [10, 11], messages := [(10, exMsgA), (11, exMsgB)] }

/-- Fixture: an old `Submitted` record keyed 1 (queued at time 0). -/
def exMsgC : QueuedMessage :=
  { id := 1, message := exFrost, status := MessageStatus.Submitted,
    queued_at := 0, attempts := 2, last_error := none }

/-- Fixture: an equally old `Pending` record keyed 2. -/
def exMsgD : QueuedMessage :=
  { id := 2, message := exFrost, status := MessageStatus.Pending,
    queued_at := 0, attempts := 0, last_error := none }

/-- Fixture queue for pruning: one stale terminal record, one stale
pending record. -/
def exQ3 : MessageQueue :=
  { pending := [1, 2], messages := [(1, exMsgC), (2, exMsgD)] }

/-- Fixture: a `Pending` record whose attempts already exceed the retry
cap. -/
def exMsgR : QueuedMessage :=
  { id := 20, message := exFrost, status := MessageStatus.Pending,
    queued_at := 0, attempts := 5, last_error := none }

/-- Fixture queue holding only `exMsgR`. -/
def exQ5 : MessageQueue :=
  { pending := [20], messages := [(20, exMsgR)] }

/-- Fixture: a fresh `Pending` record whose message carries a proof. -/
def exMsgP : QueuedMessage :=
  { id := 30, message := exFrostP, status := MessageStatus.Pending,
    queued_at := 0, attempts := 0, last_error := none }

/-- Fixture queue holding only `exMsgP`. -/
def exQ6 : MessageQueue :=
  { pending := [30], messages := [(30, exMsgP)] }

/-- Fixture: a fresh `Pending` record without a proof. -/
def exMsgS : QueuedMessage :=
  { id := 40, message := exFrost, status := MessageStatus.Pending,
    queued_at := 0, attempts := 0, last_error := none }

/-- Fixture queue holding only `exMsgS`. -/
def exQ7 : MessageQueue :=
  { pending := [40], messages := [(40, exMsgS)] }

/-- Adapter stub whose calls always succeed. -/
def okAdapter : FrostMessage → Except String Unit := fun _ => Except.ok ()

/-- Adapter stub whose calls always fail. -/
def errAdapter : FrostMessage → Except String Unit := fun _ => Except.error "adapter boom"

/-- A concrete configuration with auto-pruning disabled. -/
def cfgEx : RelayerConfig :=
  { max_concurrent_messages := 4, max_retry_attempts := 3, retry_delay_secs := 1,
    enable_auto_pruning := false, message_history_hours := 24 }

/-- A concrete configuration with auto-pruning enabled and a zero-hour
retention window: every non-`Pending`/`Proving` record is past the window
at once. -/
def cfgPrune : RelayerConfig :=
  { max_concurrent_messages := 4, max_retry_attempts := 3, retry_delay_secs := 1,
    enable_auto_pruning := true, message_history_hours := 0 }

section HelperLemmas

theorem lookupMsg_mem {msgs : List (Nat × QueuedMessage)} {k : Nat} {m : QueuedMessage}
    (h : lookupMsg msgs k = some m) : (k, m) ∈ msgs := by
  induction msgs with
  | nil => simp [lookupMsg] at h
  | cons p rest ih =>
      obtain ⟨k', m'⟩ := p
      by_cases hk : k' = k
      · subst hk
        simp [lookupMsg] at h
        simp [h]
      · simp [lookupMsg, hk] at h
        exact List.mem_cons_of_mem _ (ih h)

theorem lookupMsg_insertMsg_self (msgs : List (Nat × QueuedMessage)) (id : Nat)
    (m : QueuedMessage) : lookupMsg (insertMsg msgs id m) id = some m := by
  induction msgs with
  | nil => simp [insertMsg, lookupMsg]
  | cons p rest ih =>
      obtain ⟨k, v⟩ := p
      by_cases hk : k = id
      · simp [insertMsg, hk, lookupMsg]
      · simp [insertMsg, hk, lookupMsg, ih]

theorem lookupMsg_insertMsg_ne (msgs : List (Nat × QueuedMessage)) {id k : Nat}
    (m : QueuedMessage) (hk : k ≠ id) :
    lookupMsg (insertMsg msgs id m) k = lookupMsg msgs k := by
  induction msgs with
  | nil => simp [insertMsg, lookupMsg, Ne.symm hk]
  | cons p rest ih =>
      obtain ⟨k', v⟩ := p
      by_cases hk' : k' = id
      · subst hk'
        simp [insertMsg, lookupMsg, Ne.symm hk]
      · by_cases hkk : k' = k
        · subst hkk
          simp [insertMsg, hk', lookupMsg]
        · simp [insertMsg, hk', lookupMsg, hkk, ih]

theorem updEntry_hit (id : Nat) (st : MessageStatus) (err : Option String)
    (v : QueuedMessage) : updEntry id st err (id, v) = (id, applyUpdate v st err) := by
  show (if id = id then (id, applyUpdate v st err) else (id, v)) = (id, applyUpdate v st err)
  rw [if_pos rfl]

theorem updEntry_miss {id k : Nat} (st : MessageStatus) (err : Option String)
    (v : QueuedMessage) (hk : k ≠ id) : updEntry id st err (k, v) = (k, v) := by
  show (if k = id then (k, applyUpdate v st err) else (k, v)) = (k, v)
  rw [if_neg hk]

theorem lookupMsg_update_self (msgs : List (Nat × QueuedMessage)) (id : Nat)
    (st : MessageStatus) (err : Option String) :
    lookupMsg (msgs.map (updEntry id st err)) id =
      (lookupMsg msgs id).map (fun m => applyUpdate m st err) := by
  induction msgs with
  | nil => simp [lookupMsg]
  | cons p rest ih =>
      obtain ⟨k, v⟩ := p
      rw [List.map_cons]
      by_cases hk : k = id
      · subst hk
        rw [updEntry_hit]
        simp only [lookupMsg, if_pos rfl]
        rfl
      · rw [updEntry_miss st err v hk]
        simp only [lookupMsg, if_neg hk]
        exact ih

theorem lookupMsg_update_ne (msgs : List (Nat × QueuedMessage)) {id k : Nat}
    (st : MessageStatus) (err : Option String) (hk : k ≠ id) :
    lookupMsg (msgs.map (updEntry id st err)) k = lookupMsg msgs k := by
  induction msgs with
  | nil => simp [lookupMsg]
  | cons p rest ih =>
      obtain ⟨k', v⟩ := p
      rw [List.map_cons]
      by_cases hk' : k' = id
      · subst hk'
        rw [updEntry_hit]
        simp only [lookupMsg, if_neg (Ne.symm hk)]
        exact ih
      · rw [updEntry_miss st err v hk']
        by_cases hkk : k' = k
        · subst hkk
          simp [lookupMsg]
        · simp only [lookupMsg, if_neg hkk]
          exact ih

theorem dequeueAux_eq_some {pnd : List Nat} {msgs : List (Nat × QueuedMessage)}
    {m : QueuedMessage} {rest : List Nat}
    (h : dequeueAux pnd msgs = (some m, rest)) :
    ∃ pre k, pnd = pre ++ k :: rest ∧ lookupMsg msgs k = some m ∧
      m.status = MessageStatus.Pending ∧ ∀ i ∈ pre, pendingAt msgs i = false := by
  induction pnd with
  | nil => simp [dequeueAux] at h
  | cons id tl ih =>
      cases hl : lookupMsg msgs id with
      | some v =>
          by_cases hs : v.status = MessageStatus.Pending
          · have hred : dequeueAux (id :: tl) msgs = (some v, tl) := by
              simp [dequeueAux, hl, hs]
            rw [hred] at h
            injection h with h1 h2
            injection h1 with h1
            subst h1
            subst h2
            exact ⟨[], id, by simp, hl, hs, by simp⟩
          · have hred : dequeueAux (id :: tl) msgs = dequeueAux tl msgs := by
              simp [dequeueAux, hl, hs]
            rw [hred] at h
            obtain ⟨pre, k, hpnd, hlk, hst, hpre⟩ := ih h
            refine ⟨id :: pre, k, by simp [hpnd], hlk, hst, ?_⟩
            intro i hi
            rcases List.mem_cons.mp hi with hi | hi
            · subst hi
              simp [pendingAt, hl, hs]
            · exact hpre i hi
      | none =>
          have hred : dequeueAux (id :: tl) msgs = dequeueAux tl msgs := by
            simp [dequeueAux, hl]
          rw [hred] at h
          obtain ⟨pre, k, hpnd, hlk, hst, hpre⟩ := ih h
          refine ⟨id :: pre, k, by simp [hpnd], hlk, hst, ?_⟩
          intro i hi
          rcases List.mem_cons.mp hi with hi | hi
          · subst hi
            simp [pendingAt, hl]
          · exact hpre i hi

theorem dequeueAux_eq_none {pnd : List Nat} {msgs : List (Nat × QueuedMessage)}
    {rest : List Nat} (h : dequeueAux pnd msgs = (none, rest)) :
    rest = [] ∧ ∀ i ∈ pnd, pendingAt msgs i = false := by
  induction pnd with
  | nil =>
      simp [dequeueAux] at h
      simp [h]
  | cons id tl ih =>
      cases hl : lookupMsg msgs id with
      | some v =>
          by_cases hs : v.status = MessageStatus.Pending
          · have hred : dequeueAux (id :: tl) msgs = (some v, tl) := by
              simp [dequeueAux, hl, hs]
            rw [hred] at h
            simp at h
          · have hred : dequeueAux (id :: tl) msgs = dequeueAux tl msgs := by
              simp [dequeueAux, hl, hs]
            rw [hred] at h
            obtain ⟨hr, hall⟩ := ih h
            refine ⟨hr, ?_⟩
            intro i hi
            rcases List.mem_cons.mp hi with hi | hi
            · subst hi
              simp [pendingAt, hl, hs]
            · exact hall i hi
      | none =>
          have hred : dequeueAux (id :: tl) msgs = dequeueAux tl msgs := by
            simp [dequeueAux, hl]
          rw [hred] at h
          obtain ⟨hr, hall⟩ := ih h
          refine ⟨hr, ?_⟩
          intro i hi
          rcases List.mem_cons.mp hi with hi | hi
          · subst hi
            simp [pendingAt, hl]
          · exact hall i hi

theorem lookupMsg_eq_none_iff {msgs : List (Nat × QueuedMessage)} {id : Nat} :
    lookupMsg msgs id = none ↔ id ∉ msgs.map Prod.fst := by
  induction msgs with
  | nil => simp [lookupMsg]
  | cons p rest ih =>
      obtain ⟨k, v⟩ := p
      by_cases hk : k = id
      · subst hk
        simp [lookupMsg]
      · simp [lookupMsg, hk, ih, Ne.symm hk]

theorem map_updEntry_of_absent {msgs : List (Nat × QueuedMessage)} {id : Nat}
    (st : MessageStatus) (err : Option String) (h : lookupMsg msgs id = none) :
    msgs.map (updEntry id st err) = msgs := by
  induction msgs with
  | nil => simp
  | cons p rest ih =>
      obtain ⟨k, v⟩ := p
      by_cases hk : k = id
      · subst hk
        simp [lookupMsg] at h
      · simp only [lookupMsg, if_neg hk] at h
        rw [List.map_cons, updEntry_miss st err v hk, ih h]

theorem dequeue_messages (q : MessageQueue) : (dequeue q).2.messages = q.messages := by
  rcases h : dequeueAux q.pending q.messages with ⟨res, rest⟩
  simp [dequeue, h]

theorem dequeue_fst (q : MessageQueue) :
    (dequeue q).1 = (dequeueAux q.pending q.messages).1 := by
  rcases h : dequeueAux q.pending q.messages with ⟨res, rest⟩
  simp [dequeue, h]

theorem dequeue_pending (q : MessageQueue) :
    (dequeue q).2.pending = (dequeueAux q.pending q.messages).2 := by
  rcases h : dequeueAux q.pending q.messages with ⟨res, rest⟩
  simp [dequeue, h]

theorem mem_keys_insertMsg {msgs : List (Nat × QueuedMessage)} {id x : Nat}
    (m : QueuedMessage) :
    x ∈ (insertMsg msgs id m).map Prod.fst ↔ x ∈ msgs.map Prod.fst ∨ x = id := by
  induction msgs with
  | nil => simp [insertMsg]
  | cons p rest ih =>
      obtain ⟨k, v⟩ := p
      by_cases hk : k = id
      · subst hk
        simp [insertMsg]
        tauto
      · simp [insertMsg, hk, ih]
        tauto

theorem nodupKeys_insertMsg {msgs : List (Nat × QueuedMessage)} (id : Nat)
    (m : QueuedMessage) (h : (msgs.map Prod.fst).Nodup) :
    ((insertMsg msgs id m).map Prod.fst).Nodup := by
  induction msgs with
  | nil => simp [insertMsg]
  | cons p rest ih =>
      obtain ⟨k, v⟩ := p
      simp only [List.map_cons, List.nodup_cons] at h
      by_cases hk : k = id
      · subst hk
        simpa [insertMsg, List.nodup_cons] using h
      · simp only [insertMsg, if_neg hk, List.map_cons, List.nodup_cons]
        refine ⟨?_, ih h.2⟩
        rw [mem_keys_insertMsg m]
        push_neg
        exact ⟨h.1, hk⟩

theorem keys_map_updEntry (msgs : List (Nat × QueuedMessage)) (id : Nat)
    (st : MessageStatus) (err : Option String) :
    (msgs.map (updEntry id st err)).map Prod.fst = msgs.map Prod.fst := by
  induction msgs with
  | nil => simp
  | cons p rest ih =>
      obtain ⟨k, v⟩ := p
      by_cases hk : k = id
      · subst hk
        rw [List.map_cons, updEntry_hit]
        simp [ih]
      · rw [List.map_cons, updEntry_miss st err v hk]
        simp [ih]

theorem lookupMsg_filter (msgs : List (Nat × QueuedMessage))
    (p : Nat × QueuedMessage → Bool) (id : Nat) (hnd : (msgs.map Prod.fst).Nodup) :
    lookupMsg (msgs.filter p) id =
      match lookupMsg msgs id with
      | some m => if p (id, m) then some m else none
      | none => none := by
  induction msgs with
  | nil => simp [lookupMsg]
  | cons q rest ih =>
      obtain ⟨k, v⟩ := q
      simp only [List.map_cons, List.nodup_cons] at hnd
      by_cases hk : k = id
      · subst hk
        have hnone : lookupMsg rest k = none := lookupMsg_eq_none_iff.mpr hnd.1
        by_cases hp : p (k, v) = true
        · simp [List.filter_cons, hp, lookupMsg]
        · rw [Bool.not_eq_true] at hp
          have hfilter : List.filter p ((k, v) :: rest) = List.filter p rest := by
            simp [List.filter_cons, hp]
          have hlk : lookupMsg ((k, v) :: rest) k = some v := by
            simp [lookupMsg]
          rw [hfilter, ih hnd.2, hnone, hlk]
          simp [hp]
      · by_cases hp : p (k, v) = true
        · simp only [List.filter_cons, hp, if_pos rfl]
          simp only [lookupMsg, if_neg hk]
          exact ih hnd.2
        · simp only [List.filter_cons, Bool.not_eq_true] at hp ⊢
          rw [hp]
          simp only [lookupMsg, if_neg hk]
          exact ih hnd.2

theorem nodupKeys_filter (msgs : List (Nat × QueuedMessage))
    (p : Nat × QueuedMessage → Bool) (h : (msgs.map Prod.fst).Nodup) :
    ((msgs.filter p).map Prod.fst).Nodup :=
  ((msgs.filter_sublist).map Prod.fst).nodup h

end HelperLemmas

/-- C5: `validate_message` rejects exactly when the source chain is the
`Unknown` sentinel, the destination chain is `Unknown`, or the payload is
empty; every rejection is a `ValidationError`; the three single-violation
test vectors of the spec get three pairwise distinct reason strings, and
the well-formed vector is accepted. The function is a pure function of the
message alone (no adapter is in scope). -/
theorem validate_message_c5 :
    (∀ m : FrostMessage,
        validate_message m = Except.ok () ↔
          (m.from_chain ≠ ChainId.Unknown ∧ m.to_chain ≠ ChainId.Unknown ∧ m.payload ≠ [])) ∧
    (∀ m : FrostMessage,
        validate_message m = Except.ok () ∨
          ∃ s, validate_message m = Except.error (RelayerError.ValidationError s)) ∧
    (validate_message ⟨ChainId.Unknown, ChainId.Known 1, [1], none⟩ =
        Except.error (RelayerError.ValidationError "Source chain is unknown") ∧
      validate_message ⟨ChainId.Known 0, ChainId.Unknown, [1], none⟩ =
        Except.error (RelayerError.ValidationError "Target chain is unknown") ∧
      validate_message ⟨ChainId.Known 0, ChainId.Known 1, [], none⟩ =
        Except.error (RelayerError.ValidationError "Payload is empty") ∧
      validate_message ⟨ChainId.Known 0, ChainId.Known 1, [1, 2, 3], none⟩ = Except.ok () ∧
      ("Source chain is unknown" : String) ≠ "Target chain is unknown" ∧
      ("Source chain is unknown" : String) ≠ "Payload is empty" ∧
      ("Target chain is unknown" : String) ≠ "Payload is empty") := by
  refine ⟨?_, ?_, ?_⟩
  · intro m
    unfold validate_message
    split_ifs with h1 h2 h3 <;> simp_all
  · intro m
    unfold validate_message
    split_ifs <;> simp
  · exact ⟨rfl, rfl, rfl, rfl, by decide, by decide, by decide⟩

/-- C8: `start` on a not-running service sets the running flag and
succeeds; on an already-running service it returns a `Configuration`
error and leaves the flag as it was; hence a second `start` without an
intervening `stop` fails with a `Configuration` error. -/
theorem start_c8 :
    start false = (Except.ok (), true) ∧
    start true = (Except.error (RelayerError.Configuration "Service already running"), true) ∧
    (start (start false).2).1 =
      Except.error (RelayerError.Configuration "Service already running") :=
  ⟨rfl, rfl, rfl⟩

/-- C1: `dequeue` leaves the lookup map untouched; when it returns a
message, that message is a copy of a record still stored (with unchanged
status `Pending`), the ordering sequence splits as a discarded prefix of
non-pending ids, the returned id (also removed), and the untouched
remainder — so the returned id is the earliest pending id, giving FIFO
order among still-pending messages over successive dequeues; when it
returns nothing, no id in the sequence was pending and the sequence is
exhausted. -/
theorem dequeue_c1 (q : MessageQueue) (hq : IdKeyed q) :
    (dequeue q).2.messages = q.messages ∧
    (∀ msg, (dequeue q).1 = some msg →
        lookupMsg q.messages msg.id = some msg ∧
        msg.status = MessageStatus.Pending ∧
        ∃ pre, q.pending = pre ++ msg.id :: (dequeue q).2.pending ∧
          ∀ i ∈ pre, pendingAt q.messages i = false) ∧
    ((dequeue q).1 = none →
        (dequeue q).2.pending = [] ∧ ∀ i ∈ q.pending, pendingAt q.messages i = false) := by
  refine ⟨dequeue_messages q, ?_, ?_⟩
  · intro msg hmsg
    rw [dequeue_fst] at hmsg
    rcases hda : dequeueAux q.pending q.messages with ⟨res, rest⟩
    rw [hda] at hmsg
    simp at hmsg
    subst hmsg
    obtain ⟨pre, k, hpnd, hlk, hst, hpre⟩ := dequeueAux_eq_some hda
    have hid : msg.id = k := hq (k, msg) (lookupMsg_mem hlk)
    refine ⟨by rw [hid]; exact hlk, hst, pre, ?_, hpre⟩
    rw [dequeue_pending, hda, hid]
    exact hpnd
  · intro hres
    rw [dequeue_fst] at hres
    rcases hda : dequeueAux q.pending q.messages with ⟨res, rest⟩
    rw [hda] at hres
    simp at hres
    subst hres
    obtain ⟨hr, hall⟩ := dequeueAux_eq_none hda
    rw [dequeue_pending, hda]
    exact ⟨hr, hall⟩

/-- Witness for C1 on a concrete queue: the first id is `Submitted` and is
skipped, the second is `Pending` and is returned while staying in the map. -/
theorem dequeue_c1_witness :
    (dequeue exQ1).1 = some exMsgB ∧
    (dequeue exQ1).2.messages = exQ1.messages ∧
    lookupMsg exQ1.messages exMsgB.id = some exMsgB ∧
    exMsgB.status = MessageStatus.Pending ∧
    (dequeue exQ1).2.pending = [] := by
  have h := dequeue_c1 exQ1 (by unfold IdKeyed; decide)
  have h2 := h.2.1 exMsgB (by decide)
  exact ⟨by decide, h.1, h2.1, h2.2.1, by decide⟩

theorem nodupKeys_runOp (q : MessageQueue) (op : QueueOp) (h : NodupKeys q) :
    NodupKeys (runOp q op) := by
  cases op with
  | enq qm => exact nodupKeys_insertMsg qm.id qm h
  | deq =>
      show (((dequeue q).2.messages).map Prod.fst).Nodup
      rw [dequeue_messages]
      exact h
  | upd uid st err =>
      show (((q.messages.map (updEntry uid st err))).map Prod.fst).Nodup
      rw [keys_map_updEntry]
      exact h
  | get gid => exact h
  | prune now hh => exact nodupKeys_filter _ _ h

theorem attempts_mono_op (q : MessageQueue) (op : QueueOp) (id : Nat) (m' : QueuedMessage)
    (hnd : NodupKeys q)
    (hop : ∀ qm, op = QueueOp.enq qm → qm.id ≠ id)
    (h' : lookupMsg (runOp q op).messages id = some m') :
    ∃ m, lookupMsg q.messages id = some m ∧ m.attempts ≤ m'.attempts := by
  cases op with
  | enq qm =>
      have hne : qm.id ≠ id := hop qm rfl
      rw [show (runOp q (QueueOp.enq qm)).messages = insertMsg q.messages qm.id qm from rfl] at h'
      rw [lookupMsg_insertMsg_ne q.messages qm (Ne.symm hne)] at h'
      exact ⟨m', h', le_rfl⟩
  | deq =>
      rw [show (runOp q QueueOp.deq).messages = (dequeue q).2.messages from rfl,
        dequeue_messages] at h'
      exact ⟨m', h', le_rfl⟩
  | upd uid st err =>
      rw [show (runOp q (QueueOp.upd uid st err)).messages =
        q.messages.map (updEntry uid st err) from rfl] at h'
      by_cases hid : id = uid
      · subst hid
        rw [lookupMsg_update_self] at h'
        cases hl : lookupMsg q.messages id with
        | none =>
            rw [hl] at h'
            simp at h'
        | some m =>
            rw [hl] at h'
            simp at h'
            refine ⟨m, rfl, ?_⟩
            rw [← h']
            exact Nat.le_add_right _ _
      · rw [lookupMsg_update_ne _ st err hid] at h'
        exact ⟨m', h', le_rfl⟩
  | get gid => exact ⟨m', h', le_rfl⟩
  | prune now hh =>
      rw [show (runOp q (QueueOp.prune now hh)).messages =
        q.messages.filter (fun p => shouldKeep now hh p.2) from rfl] at h'
      rw [lookupMsg_filter _ _ _ hnd] at h'
      cases hl : lookupMsg q.messages id with
      | none =>
          rw [hl] at h'
          simp at h'
      | some m =>
          rw [hl] at h'
          by_cases hk : shouldKeep now hh m = true
          · simp only [hk, if_pos] at h'
            simp at h'
            exact ⟨m, rfl, le_of_eq (by rw [h'])⟩
          · rw [Bool.not_eq_true] at hk
            simp [hk] at h'

theorem attempts_mono_ops (ops : List QueueOp) (q : MessageQueue) (id : Nat)
    (hnd : NodupKeys q)
    (hop : ∀ qm, QueueOp.enq qm ∈ ops → qm.id ≠ id) :
    ∀ m', lookupMsg (runOps q ops).messages id = some m' →
      ∃ m, lookupMsg q.messages id = some m ∧ m.attempts ≤ m'.attempts := by
  induction ops generalizing q with
  | nil =>
      intro m' h'
      exact ⟨m', h', le_rfl⟩
  | cons op rest ih =>
      intro m' h'
      rw [show runOps q (op :: rest) = runOps (runOp q op) rest from rfl] at h'
      obtain ⟨mm, hmm, hle⟩ := ih (runOp q op) (nodupKeys_runOp q op hnd)
        (fun qm hq => hop qm (List.mem_cons_of_mem _ hq)) m' h'
      obtain ⟨m, hm, hle2⟩ := attempts_mono_op q op id mm hnd
        (fun qm he => hop qm (by rw [he] at *; exact List.mem_cons_self _ _)) hmm
      exact ⟨m, hm, le_trans hle2 hle⟩

/-- C2: `update_status` on a present id replaces the stored status and
error text and increments `attempts` by exactly 1 when the new status is
`Failed` (and only then); on an unknown id it is a no-op; other records
and the ordering sequence are untouched; consequently `attempts` never
decreases across any sequence of queue operations that does not re-enqueue
the same id. -/
theorem update_status_c2 :
    (∀ st, statusIsFailed st = true ↔ ∃ r, st = MessageStatus.Failed r) ∧
    (∀ q id st err, lookupMsg q.messages id = none → update_status q id st err = q) ∧
    (∀ q id st err, (update_status q id st err).pending = q.pending) ∧
    (∀ q id st err m, lookupMsg q.messages id = some m →
        lookupMsg (update_status q id st err).messages id = some (applyUpdate m st err) ∧
        (applyUpdate m st err).status = st ∧
        (applyUpdate m st err).last_error = err ∧
        (applyUpdate m st err).attempts =
          m.attempts + (if statusIsFailed st then 1 else 0)) ∧
    (∀ q id st err k, k ≠ id →
        lookupMsg (update_status q id st err).messages k = lookupMsg q.messages k) ∧
    (∀ (ops : List QueueOp) (q : MessageQueue) (id : Nat), NodupKeys q →
        (∀ qm, QueueOp.enq qm ∈ ops → qm.id ≠ id) →
        ∀ m m', lookupMsg q.messages id = some m →
          lookupMsg (runOps q ops).messages id = some m' →
          m.attempts ≤ m'.attempts) := by
  refine ⟨?_, ?_, ?_, ?_, ?_, ?_⟩
  · intro st
    cases st <;> simp [statusIsFailed]
  · intro q id st err h
    show { q with messages := q.messages.map (updEntry id st err) } = q
    rw [map_updEntry_of_absent st err h]
  · intro q id st err
    rfl
  · intro q id st err m h
    refine ⟨?_, rfl, rfl, rfl⟩
    show lookupMsg (q.messages.map (updEntry id st err)) id = _
    rw [lookupMsg_update_self, h]
    rfl
  · intro q id st err k hk
    show lookupMsg (q.messages.map (updEntry id st err)) k = _
    exact lookupMsg_update_ne _ st err hk
  · intro ops q id hnd hop m m' hm hm'
    obtain ⟨m0, hm0, hle⟩ := attempts_mono_ops ops q id hnd hop m' hm'
    rw [hm] at hm0
    cases hm0
    exact hle

/-- Witness for C2 on a concrete queue: a `Failed` update replaces status
and error and bumps `attempts` by one; an update to an unknown id is a
no-op; attempts are monotone across a concrete operation sequence. -/
theorem update_status_c2_witness :
    lookupMsg (update_status exQ1 11 (MessageStatus.Failed "boom") (some "err")).messages 11 =
      some (applyUpdate exMsgB (MessageStatus.Failed "boom") (some "err")) ∧
    (applyUpdate exMsgB (MessageStatus.Failed "boom") (some "err")).attempts =
      exMsgB.attempts + 1 ∧
    update_status exQ1 99 MessageStatus.Submitted none = exQ1 ∧
    exMsgB.attempts ≤ (applyUpdate exMsgB (MessageStatus.Failed "boom") (some "err")).attempts := by
  have h := update_status_c2
  refine ⟨(h.2.2.2.1 exQ1 11 _ _ exMsgB (by decide)).1, by decide,
    h.2.1 exQ1 99 _ _ (by decide), ?_⟩
  exact h.2.2.2.2.2 [QueueOp.upd 11 (MessageStatus.Failed "boom") (some "err")] exQ1 11
    (by unfold NodupKeys; decide) (by intro qm hm; simp at hm) exMsgB
    (applyUpdate exMsgB (MessageStatus.Failed "boom") (some "err")) (by decide) (by decide)

/-- C3 counterexample: with a one-hour retention window, a `Submitted`
record queued exactly 3600 seconds ago has an age that does not exceed
one hour, yet `prune_old_messages` removes it from both structures —
refuting "a message whose age does not exceed h hours is kept" (the code
keeps a record only when its age is strictly below the threshold). -/
theorem prune_c3_counterexample :
    exMsgC.status = MessageStatus.Submitted ∧
    ¬(3600 - exMsgC.queued_at > 1 * 3600) ∧
    lookupMsg exQ3.messages 1 = some exMsgC ∧
    lookupMsg (prune_old_messages exQ3 3600 1).messages 1 = none ∧
    1 ∉ (prune_old_messages exQ3 3600 1).pending := by
  decide

theorem prune_removes (q : MessageQueue) (hnd : NodupKeys q) (now h : Nat)
    {id : Nat} {m : QueuedMessage} (hm : lookupMsg q.messages id = some m)
    (hsk : shouldKeep now h m = false) :
    lookupMsg (prune_old_messages q now h).messages id = none ∧
      id ∉ (prune_old_messages q now h).pending := by
  constructor
  · show lookupMsg (q.messages.filter _) id = none
    rw [lookupMsg_filter _ _ _ hnd, hm]
    simp [hsk]
  · intro hmem
    have hsk2 : shouldKeep now h m = true := by
      have hf2 := (List.mem_filter.1 hmem).2
      simpa [hm] using hf2
    rw [hsk] at hsk2
    exact Bool.false_ne_true hsk2

/-- C3 amended: `prune_old_messages` removes exactly those records whose
age in whole seconds is at least `max_age_hours * 3600` (not strictly
exceeding it) and whose status is neither `Pending` nor `Proving`;
`Pending`/`Proving` records are kept regardless of age, a record with age
below the threshold is kept unchanged, each removed id is stripped from
both the lookup map and the ordering sequence, and no id is added to the
ordering sequence. -/
theorem prune_c3_amended (q : MessageQueue) (hnd : NodupKeys q) (now h : Nat) :
    (∀ id m, lookupMsg q.messages id = some m →
        (h * 3600 ≤ now - m.queued_at ∧ m.status ≠ MessageStatus.Pending ∧
            m.status ≠ MessageStatus.Proving →
          lookupMsg (prune_old_messages q now h).messages id = none ∧
            id ∉ (prune_old_messages q now h).pending) ∧
        (now - m.queued_at < h * 3600 ∨ m.status = MessageStatus.Pending ∨
            m.status = MessageStatus.Proving →
          lookupMsg (prune_old_messages q now h).messages id = some m)) ∧
    (∀ id ∈ (prune_old_messages q now h).pending, id ∈ q.pending) := by
  constructor
  · intro id m hm
    constructor
    · rintro ⟨hage, hp, hpr⟩
      have hsk : shouldKeep now h m = false := by
        simp [shouldKeep, hp, hpr]
        omega
      exact prune_removes q hnd now h hm hsk
    · intro hkeep
      have hsk : shouldKeep now h m = true := by
        rcases hkeep with h1 | h1 | h1 <;> simp [shouldKeep, h1]
      show lookupMsg (q.messages.filter _) id = some m
      rw [lookupMsg_filter _ _ _ hnd, hm]
      simp [hsk]
  · intro id hid
    exact (List.mem_filter.1 hid).1

/-- Witness for the amended C3 on a concrete queue: the stale `Submitted`
record is removed from both structures while the equally stale `Pending`
record survives. -/
theorem prune_c3_amended_witness :
    lookupMsg (prune_old_messages exQ3 3600 1).messages 1 = none ∧
    1 ∉ (prune_old_messages exQ3 3600 1).pending ∧
    lookupMsg (prune_old_messages exQ3 3600 1).messages 2 = some exMsgD := by
  have h := prune_c3_amended exQ3 (by unfold NodupKeys; decide) 3600 1
  have h1 := (h.1 1 exMsgC (by decide)).1 ⟨by decide, by decide, by decide⟩
  have h2 := (h.1 2 exMsgD (by decide)).2 (Or.inr (Or.inl (by decide)))
  exact ⟨h1.1, h1.2, h2⟩

theorem dequeue_some_lookup {q : MessageQueue} {msg : QueuedMessage} (hq : IdKeyed q)
    (hdq : (dequeue q).1 = some msg) :
    lookupMsg q.messages msg.id = some msg ∧ msg.status = MessageStatus.Pending := by
  have h1 : (dequeueAux q.pending q.messages).1 = some msg := by
    rw [← dequeue_fst]
    exact hdq
  rcases hda : dequeueAux q.pending q.messages with ⟨res2, rest2⟩
  rw [hda] at h1
  simp at h1
  subst h1
  obtain ⟨pre, k, hp, hlk, hst, hpre⟩ := dequeueAux_eq_some hda
  have hid : msg.id = k := hq (k, msg) (lookupMsg_mem hlk)
  rw [hid]
  exact ⟨hlk, hst⟩

/-- C4: when the dequeued message's attempts have reached
`max_retry_attempts`, the iteration records exactly one transition — to
`Failed("Max retry attempts exceeded")` — and makes no adapter call of
either kind; the stored record ends with that status, no error text, and
attempts bumped by the failed-transition increment. -/
theorem process_max_retry_c4 (cfg : RelayerConfig)
    (verify submit : FrostMessage → Except String Unit) (now : Nat)
    (q : MessageQueue) (msg : QueuedMessage)
    (hq : IdKeyed q)
    (hdq : (dequeue q).1 = some msg)
    (hatt : cfg.max_retry_attempts ≤ msg.attempts) :
    (process_messages cfg verify submit now q).2 =
      [Ev.updStatus msg.id (MessageStatus.Failed "Max retry attempts exceeded") none] ∧
    (∀ fm, Ev.callVerify fm ∉ (process_messages cfg verify submit now q).2 ∧
        Ev.callSubmit fm ∉ (process_messages cfg verify submit now q).2) ∧
    lookupMsg (process_messages cfg verify submit now q).1.messages msg.id =
      some { msg with
             status := MessageStatus.Failed "Max retry attempts exceeded"
             last_error := none
             attempts := msg.attempts + 1 } := by
  have hlk : lookupMsg q.messages msg.id = some msg := (dequeue_some_lookup hq hdq).1
  rcases hd : dequeue q with ⟨res, q1⟩
  have hres : res = some msg := by
    rw [hd] at hdq
    exact hdq
  subst hres
  have hq1m : q1.messages = q.messages := by
    have := dequeue_messages q
    rw [hd] at this
    exact this
  have hproc : process_messages cfg verify submit now q =
      (update_status q1 msg.id (MessageStatus.Failed "Max retry attempts exceeded") none,
       [Ev.updStatus msg.id (MessageStatus.Failed "Max retry attempts exceeded") none]) := by
    simp only [process_messages, hd]
    rw [if_pos hatt]
  rw [hproc]
  refine ⟨rfl, ?_, ?_⟩
  · intro fm
    constructor <;> simp
  · show lookupMsg (q1.messages.map (updEntry msg.id _ none)) msg.id = _
    rw [hq1m, lookupMsg_update_self, hlk]
    rfl

/-- Witness for C4 on a concrete queue: a pending record with 5 attempts
against a cap of 3 goes straight to `Failed` with no adapter call. -/
theorem process_max_retry_c4_witness :
    (process_messages cfgEx okAdapter okAdapter 0 exQ5).2 =
      [Ev.updStatus 20 (MessageStatus.Failed "Max retry attempts exceeded") none] ∧
    Ev.callVerify exFrost ∉ (process_messages cfgEx okAdapter okAdapter 0 exQ5).2 ∧
    Ev.callSubmit exFrost ∉ (process_messages cfgEx okAdapter okAdapter 0 exQ5).2 ∧
    lookupMsg (process_messages cfgEx okAdapter okAdapter 0 exQ5).1.messages 20 =
      some { exMsgR with
             status := MessageStatus.Failed "Max retry attempts exceeded"
             last_error := none
             attempts := 6 } := by
  have h := process_max_retry_c4 cfgEx okAdapter okAdapter 0 exQ5 exMsgR
    (by unfold IdKeyed; decide) (by decide) (by decide)
  exact ⟨h.1, (h.2.1 exFrost).1, (h.2.1 exFrost).2, h.2.2⟩

/-- C6: a dequeued message carrying a proof (with attempts below the cap)
causes a call to the source adapter's proof verification; when that call
fails the iteration records exactly the verification call followed by the
`Failed("Proof verification failed")` transition, never calls the
destination adapter's submission, and the stored record ends `Failed` with
`last_error` holding the adapter error text and attempts bumped by one. -/
theorem process_verify_fail_c6 (cfg : RelayerConfig)
    (verify submit : FrostMessage → Except String Unit) (now : Nat)
    (q : MessageQueue) (msg : QueuedMessage) (p : List Nat) (e : String)
    (hq : IdKeyed q)
    (hdq : (dequeue q).1 = some msg)
    (hatt : msg.attempts < cfg.max_retry_attempts)
    (hp : msg.message.proof = some p)
    (hv : verify msg.message = Except.error e) :
    (process_messages cfg verify submit now q).2 =
      [Ev.callVerify msg.message,
       Ev.updStatus msg.id (MessageStatus.Failed "Proof verification failed") (some e)] ∧
    (∀ fm, Ev.callSubmit fm ∉ (process_messages cfg verify submit now q).2) ∧
    lookupMsg (process_messages cfg verify submit now q).1.messages msg.id =
      some { msg with
             status := MessageStatus.Failed "Proof verification failed"
             last_error := some e
             attempts := msg.attempts + 1 } := by
  have hlk : lookupMsg q.messages msg.id = some msg := (dequeue_some_lookup hq hdq).1
  rcases hd : dequeue q with ⟨res, q1⟩
  have hres : res = some msg := by
    rw [hd] at hdq
    exact hdq
  subst hres
  have hq1m : q1.messages = q.messages := by
    have := dequeue_messages q
    rw [hd] at this
    exact this
  have hproc : process_messages cfg verify submit now q =
      (update_status q1 msg.id (MessageStatus.Failed "Proof verification failed") (some e),
       [Ev.callVerify msg.message,
        Ev.updStatus msg.id (MessageStatus.Failed "Proof verification failed") (some e)]) := by
    simp only [process_messages, hd]
    rw [if_neg (not_le.mpr hatt)]
    simp only [hp, hv]
  rw [hproc]
  refine ⟨rfl, ?_, ?_⟩
  · intro fm
    simp
  · show lookupMsg (q1.messages.map (updEntry msg.id _ (some e))) msg.id = _
    rw [hq1m, lookupMsg_update_self, hlk]
    rfl

/-- Witness for C6 on a concrete queue: the freshly enqueued proof-bearing
record (attempts 0) fails verification and ends `Failed` with
`attempts = 1` and the adapter error as `last_error`. -/
theorem process_verify_fail_c6_witness :
    (process_messages cfgEx errAdapter okAdapter 0 exQ6).2 =
      [Ev.callVerify exFrostP,
       Ev.updStatus 30 (MessageStatus.Failed "Proof verification failed") (some "adapter boom")] ∧
    Ev.callSubmit exFrostP ∉ (process_messages cfgEx errAdapter okAdapter 0 exQ6).2 ∧
    lookupMsg (process_messages cfgEx errAdapter okAdapter 0 exQ6).1.messages 30 =
      some { exMsgP with
             status := MessageStatus.Failed "Proof verification failed"
             last_error := some "adapter boom"
             attempts := 1 } := by
  have h := process_verify_fail_c6 cfgEx errAdapter okAdapter 0 exQ6 exMsgP [7] "adapter boom"
    (by unfold IdKeyed; decide) (by decide) (by decide) (by decide) rfl
  exact ⟨h.1, h.2.1 exFrostP, h.2.2⟩

/-- C7 counterexample: with auto-pruning enabled and a zero-hour retention
window, a dequeued proofless `Pending` message below the retry cap is
submitted successfully and marked `Submitted`, yet the same iteration's
trailing pruning pass deletes the record, so after the iteration it is
absent from the lookup map — its status is not `Submitted` (there is no
record at all), refuting the claim's unconditional end-state. -/
theorem process_submit_c7_counterexample :
    (dequeue exQ7).1 = some exMsgS ∧
    exMsgS.message.proof = none ∧
    exMsgS.attempts < cfgPrune.max_retry_attempts ∧
    okAdapter exMsgS.message = Except.ok () ∧
    cfgPrune.enable_auto_pruning = true ∧
    Ev.updStatus 40 MessageStatus.Submitted none ∈
      (process_messages cfgPrune okAdapter okAdapter 0 exQ7).2 ∧
    lookupMsg (process_messages cfgPrune okAdapter okAdapter 0 exQ7).1.messages 40 = none ∧
    40 ∉ (process_messages cfgPrune okAdapter okAdapter 0 exQ7).1.pending := by
  decide

/-- C7 amended: a dequeued proofless message below the retry cap is marked
`ReadyForSubmission` before the destination adapter's submission call,
whatever that call's outcome; on success the trace continues with the
`Submitted` transition and on failure with the `Failed("Destination chain
submission failed")` transition; the record ends `Submitted` with no error
text (resp. `Failed` with `last_error` holding the adapter error) provided
the iteration's own trailing auto-pruning pass does not drop the freshly
updated record — that is, whenever auto-pruning is disabled or the updated
record passes the retention test. -/
theorem process_submit_c7 (cfg : RelayerConfig)
    (verify submit : FrostMessage → Except String Unit) (now : Nat)
    (q : MessageQueue) (msg : QueuedMessage)
    (hnd : NodupKeys q)
    (hq : IdKeyed q)
    (hdq : (dequeue q).1 = some msg)
    (hatt : msg.attempts < cfg.max_retry_attempts)
    (hp : msg.message.proof = none) :
    (∃ tr, (process_messages cfg verify submit now q).2 =
        Ev.updStatus msg.id MessageStatus.ReadyForSubmission none ::
          Ev.callSubmit msg.message :: tr) ∧
    (submit msg.message = Except.ok () →
        (process_messages cfg verify submit now q).2 =
          Ev.updStatus msg.id MessageStatus.ReadyForSubmission none ::
            Ev.callSubmit msg.message ::
              Ev.updStatus msg.id MessageStatus.Submitted none ::
                (pruneTail cfg now (update_status (update_status (dequeue q).2 msg.id
                  MessageStatus.ReadyForSubmission none) msg.id
                  MessageStatus.Submitted none)).2 ∧
        ((cfg.enable_auto_pruning = false ∨
            shouldKeep now cfg.message_history_hours
              { msg with
                status := MessageStatus.Submitted
                last_error := none } = true) →
          lookupMsg (process_messages cfg verify submit now q).1.messages msg.id =
            some { msg with
                   status := MessageStatus.Submitted
                   last_error := none })) ∧
    (∀ e, submit msg.message = Except.error e →
        (process_messages cfg verify submit now q).2 =
          Ev.updStatus msg.id MessageStatus.ReadyForSubmission none ::
            Ev.callSubmit msg.message ::
              Ev.updStatus msg.id
                  (MessageStatus.Failed "Destination chain submission failed") (some e) ::
                (pruneTail cfg now (update_status (update_status (dequeue q).2 msg.id
                  MessageStatus.ReadyForSubmission none) msg.id
                  (MessageStatus.Failed "Destination chain submission failed") (some e))).2 ∧
        ((cfg.enable_auto_pruning = false ∨
            shouldKeep now cfg.message_history_hours
              { msg with
                status := MessageStatus.Failed "Destination chain submission failed"
                last_error := some e
                attempts := msg.attempts + 1 } = true) →
          lookupMsg (process_messages cfg verify submit now q).1.messages msg.id =
            some { msg with
                   status := MessageStatus.Failed "Destination chain submission failed"
                   last_error := some e
                   attempts := msg.attempts + 1 })) := by
  have hlk : lookupMsg q.messages msg.id = some msg := (dequeue_some_lookup hq hdq).1
  rcases hd : dequeue q with ⟨res, q1⟩
  have hres : res = some msg := by
    rw [hd] at hdq
    exact hdq
  subst hres
  have hq1m : q1.messages = q.messages := by
    have := dequeue_messages q
    rw [hd] at this
    exact this
  have hproc : process_messages cfg verify submit now q = submitPhase cfg submit now q1 msg := by
    simp only [process_messages, hd]
    rw [if_neg (not_le.mpr hatt)]
    simp only [hp]
  have hdq2 : (dequeue q).2 = q1 := by
    rw [hd]
  refine ⟨?_, ?_, ?_⟩
  · rw [hproc]
    cases hs : submit msg.message with
    | ok u =>
        cases u
        refine ⟨Ev.updStatus msg.id MessageStatus.Submitted none ::
          (pruneTail cfg now (update_status (update_status q1 msg.id
            MessageStatus.ReadyForSubmission none) msg.id
            MessageStatus.Submitted none)).2, ?_⟩
        simp only [submitPhase, hs]
    | error e =>
        refine ⟨Ev.updStatus msg.id
            (MessageStatus.Failed "Destination chain submission failed") (some e) ::
          (pruneTail cfg now (update_status (update_status q1 msg.id
            MessageStatus.ReadyForSubmission none) msg.id
            (MessageStatus.Failed "Destination chain submission failed") (some e))).2, ?_⟩
        simp only [submitPhase, hs]
  · intro hs
    have hsp : submitPhase cfg submit now q1 msg =
        ((pruneTail cfg now (update_status (update_status q1 msg.id
            MessageStatus.ReadyForSubmission none) msg.id
            MessageStatus.Submitted none)).1,
         Ev.updStatus msg.id MessageStatus.ReadyForSubmission none ::
           Ev.callSubmit msg.message ::
             Ev.updStatus msg.id MessageStatus.Submitted none ::
               (pruneTail cfg now (update_status (update_status q1 msg.id
                 MessageStatus.ReadyForSubmission none) msg.id
                 MessageStatus.Submitted none)).2) := by
      simp only [submitPhase, hs]
    have hl3 : lookupMsg (update_status (update_status q1 msg.id
        MessageStatus.ReadyForSubmission none) msg.id
        MessageStatus.Submitted none).messages msg.id =
        some { msg with
               status := MessageStatus.Submitted
               last_error := none } := by
      show lookupMsg ((q1.messages.map (updEntry msg.id
        MessageStatus.ReadyForSubmission none)).map (updEntry msg.id
        MessageStatus.Submitted none)) msg.id = _
      rw [lookupMsg_update_self, lookupMsg_update_self, hq1m, hlk]
      rfl
    refine ⟨by rw [hproc, hsp], ?_⟩
    intro hkeep
    rw [hproc, hsp]
    cases hpr : cfg.enable_auto_pruning with
    | false =>
        simp only [pruneTail, hpr, Bool.false_eq_true, if_false]
        exact hl3
    | true =>
        rcases hkeep with hk | hk
        · rw [hpr] at hk
          cases hk
        · simp only [pruneTail, hpr, if_true]
          have hnd3 : ((update_status (update_status q1 msg.id
              MessageStatus.ReadyForSubmission none) msg.id
              MessageStatus.Submitted none).messages.map Prod.fst).Nodup := by
            show (((q1.messages.map (updEntry msg.id
              MessageStatus.ReadyForSubmission none)).map (updEntry msg.id
              MessageStatus.Submitted none)).map Prod.fst).Nodup
            rw [keys_map_updEntry, keys_map_updEntry, hq1m]
            exact hnd
          show lookupMsg ((update_status (update_status q1 msg.id
            MessageStatus.ReadyForSubmission none) msg.id
            MessageStatus.Submitted none).messages.filter _) msg.id = _
          rw [lookupMsg_filter _ _ _ hnd3, hl3]
          simp [hk]
  · intro e hs
    have hsp : submitPhase cfg submit now q1 msg =
        ((pruneTail cfg now (update_status (update_status q1 msg.id
            MessageStatus.ReadyForSubmission none) msg.id
            (MessageStatus.Failed "Destination chain submission failed") (some e))).1,
         Ev.updStatus msg.id MessageStatus.ReadyForSubmission none ::
           Ev.callSubmit msg.message ::
             Ev.updStatus msg.id
                 (MessageStatus.Failed "Destination chain submission failed") (some e) ::
               (pruneTail cfg now (update_status (update_status q1 msg.id
                 MessageStatus.ReadyForSubmission none) msg.id
                 (MessageStatus.Failed "Destination chain submission failed") (some e))).2) := by
      simp only [submitPhase, hs]
    have hl3 : lookupMsg (update_status (update_status q1 msg.id
        MessageStatus.ReadyForSubmission none) msg.id
        (MessageStatus.Failed "Destination chain submission failed") (some e)).messages msg.id =
        some { msg with
               status := MessageStatus.Failed "Destination chain submission failed"
               last_error := some e
               attempts := msg.attempts + 1 } := by
      show lookupMsg ((q1.messages.map (updEntry msg.id
        MessageStatus.ReadyForSubmission none)).map (updEntry msg.id
        (MessageStatus.Failed "Destination chain submission failed") (some e))) msg.id = _
      rw [lookupMsg_update_self, lookupMsg_update_self, hq1m, hlk]
      rfl
    refine ⟨by rw [hproc, hsp], ?_⟩
    intro hkeep
    rw [hproc, hsp]
    cases hpr : cfg.enable_auto_pruning with
    | false =>
        simp only [pruneTail, hpr, Bool.false_eq_true, if_false]
        exact hl3
    | true =>
        rcases hkeep with hk | hk
        · rw [hpr] at hk
          cases hk
        · simp only [pruneTail, hpr, if_true]
          have hnd3 : ((update_status (update_status q1 msg.id
              MessageStatus.ReadyForSubmission none) msg.id
              (MessageStatus.Failed "Destination chain submission failed")
              (some e)).messages.map Prod.fst).Nodup := by
            show (((q1.messages.map (updEntry msg.id
              MessageStatus.ReadyForSubmission none)).map (updEntry msg.id
              (MessageStatus.Failed "Destination chain submission failed")
              (some e))).map Prod.fst).Nodup
            rw [keys_map_updEntry, keys_map_updEntry, hq1m]
            exact hnd
          show lookupMsg ((update_status (update_status q1 msg.id
            MessageStatus.ReadyForSubmission none) msg.id
            (MessageStatus.Failed "Destination chain submission failed")
            (some e)).messages.filter _) msg.id = _
          rw [lookupMsg_filter _ _ _ hnd3, hl3]
          simp [hk]

/-- Witness for C7 on a concrete queue with an always-succeeding
destination adapter: after one iteration the trace is exactly
ready-for-submission, the submission call, and the `Submitted` transition,
and the stored record is `Submitted` with no error text. -/
theorem process_submit_c7_witness :
    (process_messages cfgEx okAdapter okAdapter 0 exQ7).2 =
      [Ev.updStatus 40 MessageStatus.ReadyForSubmission none,
       Ev.callSubmit exFrost,
       Ev.updStatus 40 MessageStatus.Submitted none] ∧
    lookupMsg (process_messages cfgEx okAdapter okAdapter 0 exQ7).1.messages 40 =
      some { exMsgS with
             status := MessageStatus.Submitted
             last_error := none } := by
  have h := process_submit_c7 cfgEx okAdapter okAdapter 0 exQ7 exMsgS
    (by unfold NodupKeys; decide) (by unfold IdKeyed; decide) (by decide) (by decide) (by decide)
  have h2 := h.2.1 rfl
  exact ⟨by decide, h2.2 (Or.inl rfl)⟩

/-- C9: every queue operation (enqueue, dequeue, update_status,
get_message, prune_old_messages) preserves the invariant that each id in
the ordering sequence also has a record in the lookup map, and a record
removed by pruning has its id absent from both structures afterwards. -/
theorem queue_invariant_c9 (q : MessageQueue) (hnd : NodupKeys q) (hps : PendingSub q) :
    (∀ op : QueueOp, PendingSub (runOp q op)) ∧
    (∀ now h id m, lookupMsg q.messages id = some m → shouldKeep now h m = false →
        lookupMsg (prune_old_messages q now h).messages id = none ∧
          id ∉ (prune_old_messages q now h).pending) := by
  constructor
  · intro op
    cases op with
    | enq m =>
        intro id hid
        rw [show (runOp q (QueueOp.enq m)).pending = q.pending ++ [m.id] from rfl] at hid
        rw [show (runOp q (QueueOp.enq m)).messages = insertMsg q.messages m.id m from rfl]
        by_cases hidm : id = m.id
        · subst hidm
          rw [lookupMsg_insertMsg_self]
          rfl
        · rw [lookupMsg_insertMsg_ne q.messages m hidm]
          rcases List.mem_append.1 hid with hid | hid
          · exact hps id hid
          · simp at hid
            exact absurd hid hidm
    | deq =>
        intro id hid
        rw [show (runOp q QueueOp.deq).pending = (dequeue q).2.pending from rfl,
          dequeue_pending] at hid
        rw [show (runOp q QueueOp.deq).messages = (dequeue q).2.messages from rfl,
          dequeue_messages]
        rcases hda : dequeueAux q.pending q.messages with ⟨res, rest⟩
        rw [hda] at hid
        cases res with
        | some m =>
            obtain ⟨pre, k, hpnd, _, _, _⟩ := dequeueAux_eq_some hda
            exact hps id (by rw [hpnd]; simp at hid ⊢; tauto)
        | none =>
            obtain ⟨hr, _⟩ := dequeueAux_eq_none hda
            rw [hr] at hid
            simp at hid
    | upd uid st err =>
        intro id hid
        rw [show (runOp q (QueueOp.upd uid st err)).pending = q.pending from rfl] at hid
        rw [show (runOp q (QueueOp.upd uid st err)).messages =
          q.messages.map (updEntry uid st err) from rfl]
        by_cases hidu : id = uid
        · subst hidu
          rw [lookupMsg_update_self]
          have := hps id hid
          cases hl : lookupMsg q.messages id with
          | none =>
              rw [hl] at this
              simp [Option.isSome] at this
          | some m => rfl
        · rw [lookupMsg_update_ne _ st err hidu]
          exact hps id hid
    | get gid => exact hps
    | prune now h =>
        intro id hid
        obtain ⟨hid1, hf⟩ := List.mem_filter.1 hid
        have hsome := hps id hid1
        cases hl : lookupMsg q.messages id with
        | none =>
            rw [hl] at hsome
            simp [Option.isSome] at hsome
        | some m =>
            have hsk : shouldKeep now h m = true := by
              simpa [hl] using hf
            rw [show (runOp q (QueueOp.prune now h)).messages =
              q.messages.filter (fun p => shouldKeep now h p.2) from rfl]
            rw [lookupMsg_filter _ _ _ hnd, hl]
            simp [hsk]
  · intro now h id m hm hsk
    exact prune_removes q hnd now h hm hsk

/-- Witness for C9 on a concrete queue: pruning preserves the
sequence-map consistency invariant, and the pruned id 1 is gone from both
structures. -/
theorem queue_invariant_c9_witness :
    PendingSub (runOp exQ3 (QueueOp.prune 3600 1)) ∧
    lookupMsg (prune_old_messages exQ3 3600 1).messages 1 = none ∧
    1 ∉ (prune_old_messages exQ3 3600 1).pending ∧
    PendingSub (runOp exQ3 (QueueOp.enq exMsgS)) ∧
    PendingSub (runOp exQ3 QueueOp.deq) := by
  have h := queue_invariant_c9 exQ3 (by unfold NodupKeys; decide) (by unfold PendingSub; decide)
  have h2 := h.2 3600 1 1 exMsgC (by decide) (by decide)
  exact ⟨h.1 (QueueOp.prune 3600 1), h2.1, h2.2,
    h.1 (QueueOp.enq exMsgS), h.1 QueueOp.deq⟩

theorem nodupKeys_update (q : MessageQueue) (id : Nat) (st : MessageStatus)
    (err : Option String) (hnd : NodupKeys q) : NodupKeys (update_status q id st err) := by
  show ((q.messages.map (updEntry id st err)).map Prod.fst).Nodup
  rw [keys_map_updEntry]
  exact hnd

theorem nodupKeys_prune (q : MessageQueue) (now h : Nat) (hnd : NodupKeys q) :
    NodupKeys (prune_old_messages q now h) :=
  nodupKeys_filter _ _ hnd

theorem nodupKeys_dequeue (q : MessageQueue) (hnd : NodupKeys q) :
    NodupKeys (dequeue q).2 := by
  show (((dequeue q).2.messages).map Prod.fst).Nodup
  rw [dequeue_messages]
  exact hnd

theorem nodupKeys_pruneTail (cfg : RelayerConfig) (now : Nat) (q : MessageQueue)
    (hnd : NodupKeys q) : NodupKeys (pruneTail cfg now q).1 := by
  unfold pruneTail
  split_ifs
  · exact nodupKeys_prune _ _ _ hnd
  · exact hnd

theorem idKeyed_update (q : MessageQueue) (id : Nat) (st : MessageStatus)
    (err : Option String) (hq : IdKeyed q) : IdKeyed (update_status q id st err) := by
  intro p hp
  obtain ⟨p0, hp0, hpe⟩ := List.mem_map.1 hp
  obtain ⟨k, v⟩ := p0
  subst hpe
  by_cases hk : k = id
  · subst hk
    rw [updEntry_hit]
    exact hq (k, v) hp0
  · rw [updEntry_miss st err v hk]
    exact hq (k, v) hp0

theorem idKeyed_prune (q : MessageQueue) (now h : Nat) (hq : IdKeyed q) :
    IdKeyed (prune_old_messages q now h) := fun p hp => hq p (List.mem_of_mem_filter hp)

theorem idKeyed_dequeue (q : MessageQueue) (hq : IdKeyed q) : IdKeyed (dequeue q).2 := by
  intro p hp
  rw [dequeue_messages] at hp
  exact hq p hp

theorem idKeyed_pruneTail (cfg : RelayerConfig) (now : Nat) (q : MessageQueue)
    (hq : IdKeyed q) : IdKeyed (pruneTail cfg now q).1 := by
  unfold pruneTail
  split_ifs
  · exact idKeyed_prune _ _ _ hq
  · exact hq

theorem idKeyed_insertMsg {msgs : List (Nat × QueuedMessage)}
    (hq : ∀ p ∈ msgs, p.2.id = p.1) (m : QueuedMessage) :
    ∀ p ∈ insertMsg msgs m.id m, p.2.id = p.1 := by
  induction msgs with
  | nil =>
      intro p hp
      simp [insertMsg] at hp
      subst hp
      rfl
  | cons q0 rest ih =>
      obtain ⟨k, v⟩ := q0
      intro p hp
      by_cases hk : k = m.id
      · subst hk
        simp only [insertMsg, if_pos rfl] at hp
        rcases List.mem_cons.mp hp with hp | hp
        · subst hp
          rfl
        · exact hq p (List.mem_cons_of_mem _ hp)
      · simp only [insertMsg, if_neg hk] at hp
        rcases List.mem_cons.mp hp with hp | hp
        · subst hp
          exact hq (k, v) (List.mem_cons_self _ _)
        · exact ih (fun p0 hp0 => hq p0 (List.mem_cons_of_mem _ hp0)) p hp

theorem pendAttempts_update (q : MessageQueue) (id : Nat) (st : MessageStatus)
    (err : Option String) (hst : st ≠ MessageStatus.Pending) (hpa : PendAttempts q) :
    PendAttempts (update_status q id st err) := by
  intro k m' hl' hp'
  by_cases hk : k = id
  · subst hk
    rw [show (update_status q k st err).messages = q.messages.map (updEntry k st err)
      from rfl, lookupMsg_update_self] at hl'
    cases hl : lookupMsg q.messages k with
    | none =>
        rw [hl] at hl'
        simp at hl'
    | some m =>
        rw [hl] at hl'
        simp at hl'
        rw [← hl'] at hp'
        exact absurd hp' hst
  · rw [show (update_status q id st err).messages = q.messages.map (updEntry id st err)
      from rfl, lookupMsg_update_ne _ st err hk] at hl'
    exact hpa k m' hl' hp'

theorem pendAttempts_prune (q : MessageQueue) (now h : Nat) (hnd : NodupKeys q)
    (hpa : PendAttempts q) : PendAttempts (prune_old_messages q now h) := by
  intro k m' hl' hp'
  rw [show (prune_old_messages q now h).messages =
    q.messages.filter (fun p => shouldKeep now h p.2) from rfl,
    lookupMsg_filter _ _ _ hnd] at hl'
  cases hl : lookupMsg q.messages k with
  | none =>
      rw [hl] at hl'
      simp at hl'
  | some m =>
      rw [hl] at hl'
      by_cases hsk : shouldKeep now h m = true
      · simp [hsk] at hl'
        rw [← hl'] at hp' ⊢
        exact hpa k m hl hp'
      · rw [Bool.not_eq_true] at hsk
        simp [hsk] at hl'

theorem pendAttempts_dequeue (q : MessageQueue) (hpa : PendAttempts q) :
    PendAttempts (dequeue q).2 := by
  intro k m' hl' hp'
  rw [dequeue_messages] at hl'
  exact hpa k m' hl' hp'

theorem pendAttempts_pruneTail (cfg : RelayerConfig) (now : Nat) (q : MessageQueue)
    (hnd : NodupKeys q) (hpa : PendAttempts q) : PendAttempts (pruneTail cfg now q).1 := by
  unfold pruneTail
  split_ifs
  · exact pendAttempts_prune _ _ _ hnd hpa
  · exact hpa

theorem pendAttempts_enqueue (q : MessageQueue) (m : QueuedMessage)
    (hm : m.attempts = 0) (hpa : PendAttempts q) : PendAttempts (enqueue q m) := by
  intro k m' hl' hp'
  by_cases hk : k = m.id
  · subst hk
    rw [show (enqueue q m).messages = insertMsg q.messages m.id m from rfl,
      lookupMsg_insertMsg_self] at hl'
    cases hl'
    exact hm
  · rw [show (enqueue q m).messages = insertMsg q.messages m.id m from rfl,
      lookupMsg_insertMsg_ne q.messages m hk] at hl'
    exact hpa k m' hl' hp'

theorem notPending_update_est (q : MessageQueue) (id : Nat) (st : MessageStatus)
    (err : Option String) (hst : st ≠ MessageStatus.Pending) :
    NotPendingAt (update_status q id st err) id := by
  intro m' hl'
  rw [show (update_status q id st err).messages = q.messages.map (updEntry id st err)
    from rfl, lookupMsg_update_self] at hl'
  cases hl : lookupMsg q.messages id with
  | none =>
      rw [hl] at hl'
      simp at hl'
  | some m =>
      rw [hl] at hl'
      simp at hl'
      rw [← hl']
      exact hst

theorem notPending_update_pres (q : MessageQueue) (uid : Nat) (st : MessageStatus)
    (err : Option String) (id : Nat) (hst : st ≠ MessageStatus.Pending)
    (h : NotPendingAt q id) : NotPendingAt (update_status q uid st err) id := by
  by_cases hk : id = uid
  · subst hk
    exact notPending_update_est q id st err hst
  · intro m' hl'
    rw [show (update_status q uid st err).messages = q.messages.map (updEntry uid st err)
      from rfl, lookupMsg_update_ne _ st err hk] at hl'
    exact h m' hl'

theorem notPending_prune (q : MessageQueue) (now h : Nat) (id : Nat)
    (hnd : NodupKeys q) (hq : NotPendingAt q id) :
    NotPendingAt (prune_old_messages q now h) id := by
  intro m' hl'
  rw [show (prune_old_messages q now h).messages =
    q.messages.filter (fun p => shouldKeep now h p.2) from rfl,
    lookupMsg_filter _ _ _ hnd] at hl'
  cases hl : lookupMsg q.messages id with
  | none =>
      rw [hl] at hl'
      simp at hl'
  | some m =>
      rw [hl] at hl'
      by_cases hsk : shouldKeep now h m = true
      · simp [hsk] at hl'
        rw [← hl']
        exact hq m hl
      · rw [Bool.not_eq_true] at hsk
        simp [hsk] at hl'

theorem notPending_dequeue (q : MessageQueue) (id : Nat) (hq : NotPendingAt q id) :
    NotPendingAt (dequeue q).2 id := by
  intro m' hl'
  rw [dequeue_messages] at hl'
  exact hq m' hl'

theorem notPending_pruneTail (cfg : RelayerConfig) (now : Nat) (q : MessageQueue)
    (id : Nat) (hnd : NodupKeys q) (hq : NotPendingAt q id) :
    NotPendingAt (pruneTail cfg now q).1 id := by
  unfold pruneTail
  split_ifs
  · exact notPending_prune _ _ _ _ hnd hq
  · exact hq

theorem notPending_insert_ne (q : MessageQueue) (m : QueuedMessage) (id : Nat)
    (hne : m.id ≠ id) (hq : NotPendingAt q id) : NotPendingAt (enqueue q m) id := by
  intro m' hl'
  rw [show (enqueue q m).messages = insertMsg q.messages m.id m from rfl,
    lookupMsg_insertMsg_ne q.messages m (Ne.symm hne)] at hl'
  exact hq m' hl'

/-- Case analysis of one `process_messages` iteration: the four shapes the
resulting queue can take. -/
theorem process_cases (cfg : RelayerConfig) (verify submit : FrostMessage → Except String Unit)
    (now : Nat) (q : MessageQueue) :
    ((dequeue q).1 = none ∧
        (process_messages cfg verify submit now q).1 = (pruneTail cfg now (dequeue q).2).1) ∨
    (∃ msg, (dequeue q).1 = some msg ∧ cfg.max_retry_attempts ≤ msg.attempts ∧
        (process_messages cfg verify submit now q).1 =
          update_status (dequeue q).2 msg.id
            (MessageStatus.Failed "Max retry attempts exceeded") none) ∨
    (∃ msg p e, (dequeue q).1 = some msg ∧ msg.attempts < cfg.max_retry_attempts ∧
        msg.message.proof = some p ∧ verify msg.message = Except.error e ∧
        (process_messages cfg verify submit now q).1 =
          update_status (dequeue q).2 msg.id
            (MessageStatus.Failed "Proof verification failed") (some e)) ∨
    (∃ msg st2 err2, (dequeue q).1 = some msg ∧ msg.attempts < cfg.max_retry_attempts ∧
        st2 ≠ MessageStatus.Pending ∧
        (process_messages cfg verify submit now q).1 =
          (pruneTail cfg now (update_status (update_status (dequeue q).2 msg.id
            MessageStatus.ReadyForSubmission none) msg.id st2 err2)).1) := by
  rcases hd : dequeue q with ⟨res, q1⟩
  cases res with
  | none =>
      left
      refine ⟨rfl, ?_⟩
      simp [process_messages, hd]
  | some msg =>
      by_cases hatt : cfg.max_retry_attempts ≤ msg.attempts
      · right
        left
        refine ⟨msg, rfl, hatt, ?_⟩
        simp only [process_messages, hd]
        simp [hatt]
      · have hatt' : msg.attempts < cfg.max_retry_attempts := not_le.mp hatt
        cases hp : msg.message.proof with
        | none =>
            right
            right
            right
            have hsub : (process_messages cfg verify submit now q).1 =
                (submitPhase cfg submit now q1 msg).1 := by
              simp only [process_messages, hd]
              rw [if_neg hatt]
              simp only [hp]
            cases hs : submit msg.message with
            | ok u =>
                cases u
                refine ⟨msg, MessageStatus.Submitted, none, rfl, hatt', by decide, ?_⟩
                rw [hsub]
                simp [submitPhase, hs]
            | error e =>
                refine ⟨msg, MessageStatus.Failed "Destination chain submission failed",
                  some e, rfl, hatt', by decide, ?_⟩
                rw [hsub]
                simp [submitPhase, hs]
        | some p =>
            cases hv : verify msg.message with
            | error e =>
                right
                right
                left
                refine ⟨msg, p, e, rfl, hatt', hp, hv, ?_⟩
                simp only [process_messages, hd]
                rw [if_neg hatt]
                simp [hp, hv]
            | ok u =>
                cases u
                right
                right
                right
                have hsub : (process_messages cfg verify submit now q).1 =
                    (submitPhase cfg submit now q1 msg).1 := by
                  simp only [process_messages, hd]
                  rw [if_neg hatt]
                  simp only [hp, hv]
                cases hs : submit msg.message with
                | ok u2 =>
                    cases u2
                    refine ⟨msg, MessageStatus.Submitted, none, rfl, hatt', by decide, ?_⟩
                    rw [hsub]
                    simp [submitPhase, hs]
                | error e =>
                    refine ⟨msg, MessageStatus.Failed "Destination chain submission failed",
                      some e, rfl, hatt', by decide, ?_⟩
                    rw [hsub]
                    simp [submitPhase, hs]

theorem keys_pruneTail_subset (cfg : RelayerConfig) (now : Nat) (q : MessageQueue) :
    ∀ k ∈ (pruneTail cfg now q).1.messages.map Prod.fst, k ∈ q.messages.map Prod.fst := by
  unfold pruneTail
  split_ifs
  · intro k hk
    exact ((q.messages.filter_sublist).map Prod.fst).subset hk
  · intro k hk
    exact hk

theorem process_keys_subset (cfg : RelayerConfig)
    (verify submit : FrostMessage → Except String Unit) (now : Nat) (q : MessageQueue) :
    ∀ k, k ∈ (process_messages cfg verify submit now q).1.messages.map Prod.fst →
      k ∈ q.messages.map Prod.fst := by
  have hdk : (dequeue q).2.messages.map Prod.fst = q.messages.map Prod.fst := by
    rw [dequeue_messages]
  intro k hk
  rcases process_cases cfg verify submit now q with
    ⟨hnone, heq⟩ | ⟨msg, hsome, hatt, heq⟩ | ⟨msg, p, e, hsome, hatt, hp, hv, heq⟩ |
    ⟨msg, st2, err2, hsome, hatt, hst2, heq⟩
  · rw [heq] at hk
    have := keys_pruneTail_subset cfg now _ k hk
    rwa [hdk] at this
  · rw [heq] at hk
    rw [show (update_status (dequeue q).2 msg.id
      (MessageStatus.Failed "Max retry attempts exceeded") none).messages =
      (dequeue q).2.messages.map (updEntry msg.id
        (MessageStatus.Failed "Max retry attempts exceeded") none) from rfl,
      keys_map_updEntry, hdk] at hk
    exact hk
  · rw [heq] at hk
    rw [show (update_status (dequeue q).2 msg.id
      (MessageStatus.Failed "Proof verification failed") (some e)).messages =
      (dequeue q).2.messages.map (updEntry msg.id
        (MessageStatus.Failed "Proof verification failed") (some e)) from rfl,
      keys_map_updEntry, hdk] at hk
    exact hk
  · rw [heq] at hk
    have := keys_pruneTail_subset cfg now _ k hk
    rw [show (update_status (update_status (dequeue q).2 msg.id
      MessageStatus.ReadyForSubmission none) msg.id st2 err2).messages =
      (update_status (dequeue q).2 msg.id
        MessageStatus.ReadyForSubmission none).messages.map (updEntry msg.id st2 err2)
      from rfl, keys_map_updEntry,
      show (update_status (dequeue q).2 msg.id
        MessageStatus.ReadyForSubmission none).messages =
        (dequeue q).2.messages.map (updEntry msg.id MessageStatus.ReadyForSubmission none)
      from rfl, keys_map_updEntry, hdk] at this
    exact this

theorem process_preserved (cfg : RelayerConfig)
    (verify submit : FrostMessage → Except String Unit) (now : Nat) (q : MessageQueue)
    (hnd : NodupKeys q) (hkd : IdKeyed q) (hpa : PendAttempts q) :
    NodupKeys (process_messages cfg verify submit now q).1 ∧
    IdKeyed (process_messages cfg verify submit now q).1 ∧
    PendAttempts (process_messages cfg verify submit now q).1 := by
  rcases process_cases cfg verify submit now q with
    ⟨hnone, heq⟩ | ⟨msg, hsome, hatt, heq⟩ | ⟨msg, p, e, hsome, hatt, hp, hv, heq⟩ |
    ⟨msg, st2, err2, hsome, hatt, hst2, heq⟩ <;> rw [heq]
  · exact ⟨nodupKeys_pruneTail _ _ _ (nodupKeys_dequeue q hnd),
      idKeyed_pruneTail _ _ _ (idKeyed_dequeue q hkd),
      pendAttempts_pruneTail _ _ _ (nodupKeys_dequeue q hnd) (pendAttempts_dequeue q hpa)⟩
  · exact ⟨nodupKeys_update _ _ _ _ (nodupKeys_dequeue q hnd),
      idKeyed_update _ _ _ _ (idKeyed_dequeue q hkd),
      pendAttempts_update _ _ _ _ (by decide) (pendAttempts_dequeue q hpa)⟩
  · exact ⟨nodupKeys_update _ _ _ _ (nodupKeys_dequeue q hnd),
      idKeyed_update _ _ _ _ (idKeyed_dequeue q hkd),
      pendAttempts_update _ _ _ _ (by decide) (pendAttempts_dequeue q hpa)⟩
  · have hnd2 : NodupKeys (update_status (update_status (dequeue q).2 msg.id
        MessageStatus.ReadyForSubmission none) msg.id st2 err2) :=
      nodupKeys_update _ _ _ _ (nodupKeys_update _ _ _ _ (nodupKeys_dequeue q hnd))
    exact ⟨nodupKeys_pruneTail _ _ _ hnd2,
      idKeyed_pruneTail _ _ _ (idKeyed_update _ _ _ _
        (idKeyed_update _ _ _ _ (idKeyed_dequeue q hkd))),
      pendAttempts_pruneTail _ _ _ hnd2
        (pendAttempts_update _ _ _ _ hst2 (pendAttempts_update _ _ _ _ (by decide)
          (pendAttempts_dequeue q hpa)))⟩

theorem process_preserves_notPending (cfg : RelayerConfig)
    (verify submit : FrostMessage → Except String Unit) (now : Nat) (q : MessageQueue)
    (id : Nat) (hnd : NodupKeys q) (h : NotPendingAt q id) :
    NotPendingAt (process_messages cfg verify submit now q).1 id := by
  rcases process_cases cfg verify submit now q with
    ⟨hnone, heq⟩ | ⟨msg, hsome, hatt, heq⟩ | ⟨msg, p, e, hsome, hatt, hp, hv, heq⟩ |
    ⟨msg, st2, err2, hsome, hatt, hst2, heq⟩ <;> rw [heq]
  · exact notPending_pruneTail _ _ _ _ (nodupKeys_dequeue q hnd) (notPending_dequeue q id h)
  · exact notPending_update_pres _ _ _ _ _ (by decide) (notPending_dequeue q id h)
  · exact notPending_update_pres _ _ _ _ _ (by decide) (notPending_dequeue q id h)
  · have hnd2 : NodupKeys (update_status (update_status (dequeue q).2 msg.id
        MessageStatus.ReadyForSubmission none) msg.id st2 err2) :=
      nodupKeys_update _ _ _ _ (nodupKeys_update _ _ _ _ (nodupKeys_dequeue q hnd))
    exact notPending_pruneTail _ _ _ _ hnd2
      (notPending_update_pres _ _ _ _ _ hst2
        (notPending_update_pres _ _ _ _ _ (by decide) (notPending_dequeue q id h)))

theorem process_establishes_notPending (cfg : RelayerConfig)
    (verify submit : FrostMessage → Except String Unit) (now : Nat) (q : MessageQueue)
    (msg : QueuedMessage) (hnd : NodupKeys q)
    (hdq : (dequeue q).1 = some msg) :
    NotPendingAt (process_messages cfg verify submit now q).1 msg.id := by
  rcases process_cases cfg verify submit now q with
    ⟨hnone, heq⟩ | ⟨msg2, hsome, hatt, heq⟩ | ⟨msg2, p, e, hsome, hatt, hp, hv, heq⟩ |
    ⟨msg2, st2, err2, hsome, hatt, hst2, heq⟩
  · rw [hdq] at hnone
    cases hnone
  · rw [hdq] at hsome
    injection hsome with hsome
    subst hsome
    rw [heq]
    exact notPending_update_est _ _ _ _ (by decide)
  · rw [hdq] at hsome
    injection hsome with hsome
    subst hsome
    rw [heq]
    exact notPending_update_est _ _ _ _ (by decide)
  · rw [hdq] at hsome
    injection hsome with hsome
    subst hsome
    rw [heq]
    have hnd2 : NodupKeys (update_status (update_status (dequeue q).2 msg.id
        MessageStatus.ReadyForSubmission none) msg.id st2 err2) :=
      nodupKeys_update _ _ _ _ (nodupKeys_update _ _ _ _ (nodupKeys_dequeue q hnd))
    exact notPending_pruneTail _ _ _ _ hnd2 (notPending_update_est _ _ _ _ hst2)

theorem handle_nodupKeys (q : MessageQueue) (freshId now : Nat) (m : FrostMessage)
    (hnd : NodupKeys q) : NodupKeys (handle_chain_event q freshId now m) := by
  unfold handle_chain_event
  cases hv : validate_message m with
  | error e => exact hnd
  | ok u => exact nodupKeys_insertMsg _ _ hnd

theorem handle_idKeyed (q : MessageQueue) (freshId now : Nat) (m : FrostMessage)
    (hkd : IdKeyed q) : IdKeyed (handle_chain_event q freshId now m) := by
  unfold handle_chain_event
  cases hv : validate_message m with
  | error e => exact hkd
  | ok u => exact idKeyed_insertMsg hkd _

theorem handle_pendAttempts (q : MessageQueue) (freshId now : Nat) (m : FrostMessage)
    (hpa : PendAttempts q) : PendAttempts (handle_chain_event q freshId now m) := by
  unfold handle_chain_event
  cases hv : validate_message m with
  | error e => exact hpa
  | ok u => exact pendAttempts_enqueue q _ rfl hpa

theorem keysUsed_watcher {s : SysState} (freshId now : Nat) (m : FrostMessage)
    (hku : KeysUsed s) :
    KeysUsed { q := handle_chain_event s.q freshId now m, used := freshId :: s.used } := by
  intro id mm hl
  show id ∈ freshId :: s.used
  unfold handle_chain_event at hl
  cases hv : validate_message m with
  | error e =>
      rw [hv] at hl
      have hl2 : lookupMsg s.q.messages id = some mm := hl
      exact List.mem_cons_of_mem _ (hku id mm hl2)
  | ok u =>
      rw [hv] at hl
      by_cases hid : id = freshId
      · subst hid
        exact List.mem_cons_self _ _
      · have hl2 : lookupMsg (insertMsg s.q.messages freshId
            { id := freshId
              message := m
              status := MessageStatus.Pending
              queued_at := now
              attempts := 0
              last_error := none }) id = some mm := hl
        rw [lookupMsg_insertMsg_ne s.q.messages _ hid] at hl2
        exact List.mem_cons_of_mem _ (hku id mm hl2)

theorem keysUsed_processor {s : SysState} (cfg : RelayerConfig)
    (verify submit : FrostMessage → Except String Unit) (now : Nat) (hku : KeysUsed s) :
    KeysUsed { q := (process_messages cfg verify submit now s.q).1, used := s.used } := by
  intro id mm hl
  have hkmem : id ∈ (process_messages cfg verify submit now s.q).1.messages.map Prod.fst :=
    List.mem_map.2 ⟨(id, mm), lookupMsg_mem hl, rfl⟩
  have hkq := process_keys_subset cfg verify submit now s.q id hkmem
  cases hl0 : lookupMsg s.q.messages id with
  | none => exact absurd hkq (lookupMsg_eq_none_iff.mp hl0)
  | some m0 => exact hku id m0 hl0

theorem sinv_init : SInv initState := by
  refine ⟨?_, ?_, ?_, ?_⟩
  · show (([] : List (Nat × QueuedMessage)).map Prod.fst).Nodup
    simp
  · intro p hp
    simp [initState, MessageQueue.new] at hp
  · intro id m h
    simp [initState, MessageQueue.new, lookupMsg] at h
  · intro id m h
    simp [initState, MessageQueue.new, lookupMsg] at h

theorem sinv_step {s s' : SysState} (hstep : SStep s s') (hinv : SInv s) : SInv s' := by
  obtain ⟨hnd, hkd, hpa, hku⟩ := hinv
  cases hstep with
  | watcher freshId now m hfresh =>
      exact ⟨handle_nodupKeys s.q freshId now m hnd, handle_idKeyed s.q freshId now m hkd,
        handle_pendAttempts s.q freshId now m hpa, keysUsed_watcher freshId now m hku⟩
  | processor cfg verify submit now =>
      obtain ⟨p1, p2, p3⟩ := process_preserved cfg verify submit now s.q hnd hkd hpa
      exact ⟨p1, p2, p3, keysUsed_processor cfg verify submit now hku⟩

theorem sinv_reachable {s : SysState} (hs : SReachable s) : SInv s := by
  induction hs with
  | init => exact sinv_init
  | step h hstep ih => exact sinv_step hstep ih

theorem sreachable_of_reachfrom {s1 s2 : SysState} (h1 : SReachable s1)
    (h : SReachFrom s1 s2) : SReachable s2 := by
  induction h with
  | refl => exact h1
  | tail hrf hstep ih => exact SReachable.step ih hstep

theorem notPending_sstep {s s' : SysState} (hstep : SStep s s') (hinv : SInv s) {id : Nat}
    (hid : id ∈ s.used) (h : NotPendingAt s.q id) :
    id ∈ s'.used ∧ NotPendingAt s'.q id := by
  cases hstep with
  | watcher freshId now m hfresh =>
      refine ⟨List.mem_cons_of_mem _ hid, ?_⟩
      show NotPendingAt (handle_chain_event s.q freshId now m) id
      unfold handle_chain_event
      cases hv : validate_message m with
      | error e => exact h
      | ok u =>
          have hne : freshId ≠ id := by
            intro he
            subst he
            exact hfresh hid
          exact notPending_insert_ne s.q _ id hne h
  | processor cfg verify submit now =>
      exact ⟨hid, process_preserves_notPending cfg verify submit now s.q id hinv.1 h⟩

theorem notPending_sreachfrom {s1 s2 : SysState} (h1 : SReachable s1)
    (hrf : SReachFrom s1 s2) {id : Nat} (hid : id ∈ s1.used) (h : NotPendingAt s1.q id) :
    id ∈ s2.used ∧ NotPendingAt s2.q id := by
  induction hrf with
  | refl => exact ⟨hid, h⟩
  | tail hrf' hstep ih =>
      obtain ⟨hid', h'⟩ := ih
      exact notPending_sstep hstep (sinv_reachable (sreachable_of_reachfrom h1 hrf')) hid' h'

theorem maxretry_not_in_pruneTail (cfg : RelayerConfig) (now : Nat) (q : MessageQueue)
    (id : Nat) (e : Option String) :
    Ev.updStatus id (MessageStatus.Failed "Max retry attempts exceeded") e ∉
      (pruneTail cfg now q).2 := by
  unfold pruneTail
  split_ifs <;> simp

theorem maxretry_not_in_submitPhase (cfg : RelayerConfig)
    (submit : FrostMessage → Except String Unit) (now : Nat) (q1 : MessageQueue)
    (msg : QueuedMessage) (id : Nat) (e : Option String) :
    Ev.updStatus id (MessageStatus.Failed "Max retry attempts exceeded") e ∉
      (submitPhase cfg submit now q1 msg).2 := by
  cases hs : submit msg.message with
  | ok u =>
      cases u
      simp only [submitPhase, hs]
      intro hmem
      simp only [List.mem_cons] at hmem
      rcases hmem with hh | hh | hh | hh
      · rw [Ev.updStatus.injEq] at hh
        exact absurd hh.2.1 (by decide)
      · exact Ev.noConfusion hh
      · rw [Ev.updStatus.injEq] at hh
        exact absurd hh.2.1 (by decide)
      · exact maxretry_not_in_pruneTail cfg now _ id e hh
  | error e2 =>
      simp only [submitPhase, hs]
      intro hmem
      simp only [List.mem_cons] at hmem
      rcases hmem with hh | hh | hh | hh
      · rw [Ev.updStatus.injEq] at hh
        exact absurd hh.2.1 (by decide)
      · exact Ev.noConfusion hh
      · rw [Ev.updStatus.injEq] at hh
        exact absurd hh.2.1 (by decide)
      · exact maxretry_not_in_pruneTail cfg now _ id e hh

theorem process_no_maxretry (cfg : RelayerConfig)
    (verify submit : FrostMessage → Except String Unit) (now : Nat) (q : MessageQueue)
    (hpa : PendAttempts q) (hkd : IdKeyed q) (hmax : 1 ≤ cfg.max_retry_attempts) :
    ∀ id e, Ev.updStatus id (MessageStatus.Failed "Max retry attempts exceeded") e ∉
      (process_messages cfg verify submit now q).2 := by
  intro id e
  rcases hd : dequeue q with ⟨res, q1⟩
  cases res with
  | none =>
      have htr : (process_messages cfg verify submit now q).2 = (pruneTail cfg now q1).2 := by
        simp only [process_messages, hd]
      rw [htr]
      exact maxretry_not_in_pruneTail cfg now q1 id e
  | some msg =>
      have hdq : (dequeue q).1 = some msg := by
        rw [hd]
      obtain ⟨hlk, hst⟩ := dequeue_some_lookup hkd hdq
      have hz : msg.attempts = 0 := hpa msg.id msg hlk hst
      have hcond : ¬ cfg.max_retry_attempts ≤ msg.attempts := by omega
      cases hp : msg.message.proof with
      | none =>
          have htr : (process_messages cfg verify submit now q).2 =
              (submitPhase cfg submit now q1 msg).2 := by
            simp only [process_messages, hd]
            rw [if_neg hcond]
            simp only [hp]
          rw [htr]
          exact maxretry_not_in_submitPhase cfg submit now q1 msg id e
      | some p =>
          cases hv : verify msg.message with
          | error e2 =>
              have htr : (process_messages cfg verify submit now q).2 =
                  [Ev.callVerify msg.message,
                   Ev.updStatus msg.id (MessageStatus.Failed "Proof verification failed")
                     (some e2)] := by
                simp only [process_messages, hd]
                rw [if_neg hcond]
                simp only [hp, hv]
              rw [htr]
              intro hmem
              simp only [List.mem_cons] at hmem
              rcases hmem with hh | hh | hh
              · exact Ev.noConfusion hh
              · rw [Ev.updStatus.injEq] at hh
                exact absurd hh.2.1 (by decide)
              · simp at hh
          | ok u =>
              cases u
              have htr : (process_messages cfg verify submit now q).2 =
                  Ev.callVerify msg.message :: (submitPhase cfg submit now q1 msg).2 := by
                simp only [process_messages, hd]
                rw [if_neg hcond]
                simp only [hp, hv]
              rw [htr]
              intro hmem
              simp only [List.mem_cons] at hmem
              rcases hmem with hh | hh
              · exact Ev.noConfusion hh
              · exact maxretry_not_in_submitPhase cfg submit now q1 msg id e hh

/-- C10: in every state reachable from the empty queue through the
watcher and processor loop bodies, every `Pending` record has zero
attempts; consequently, when `max_retry_attempts ≥ 1`, a processor
iteration never records the `Failed("Max retry attempts exceeded")`
transition (the max-retry branch is never taken), and a message dequeued
by a processor step is never returned by `dequeue` again in any later
reachable state — no message is processed more than once. -/
theorem reachable_c10 (s : SysState) (hs : SReachable s) :
    (∀ id m, lookupMsg s.q.messages id = some m →
        m.status = MessageStatus.Pending → m.attempts = 0) ∧
    (∀ (cfg : RelayerConfig) (verify submit : FrostMessage → Except String Unit) (now : Nat),
        1 ≤ cfg.max_retry_attempts →
        ∀ id e, Ev.updStatus id (MessageStatus.Failed "Max retry attempts exceeded") e ∉
          (process_messages cfg verify submit now s.q).2) ∧
    (∀ (cfg : RelayerConfig) (verify submit : FrostMessage → Except String Unit) (now : Nat)
        (msg : QueuedMessage), (dequeue s.q).1 = some msg →
        ∀ s2, SReachFrom ⟨(process_messages cfg verify submit now s.q).1, s.used⟩ s2 →
          ∀ msg2, (dequeue s2.q).1 = some msg2 → msg2.id ≠ msg.id) := by
  have hinv := sinv_reachable hs
  refine ⟨hinv.2.2.1, ?_, ?_⟩
  · intro cfg verify submit now hmax id e
    exact process_no_maxretry cfg verify submit now s.q hinv.2.2.1 hinv.2.1 hmax id e
  · intro cfg verify submit now msg hdq s2 hrf msg2 hdq2
    have hstep : SStep s ⟨(process_messages cfg verify submit now s.q).1, s.used⟩ :=
      SStep.processor s cfg verify submit now
    have hs' : SReachable ⟨(process_messages cfg verify submit now s.q).1, s.used⟩ :=
      SReachable.step hs hstep
    have hnotp : NotPendingAt (process_messages cfg verify submit now s.q).1 msg.id :=
      process_establishes_notPending cfg verify submit now s.q msg hinv.1 hdq
    have hused : msg.id ∈ s.used := by
      have hlk := (dequeue_some_lookup hinv.2.1 hdq).1
      exact hinv.2.2.2 msg.id msg hlk
    have h2 := notPending_sreachfrom hs' hrf hused hnotp
    have hinv2 := sinv_reachable (sreachable_of_reachfrom hs' hrf)
    obtain ⟨hlk2, hst2⟩ := dequeue_some_lookup hinv2.2.1 hdq2
    intro he
    rw [he] at hlk2
    exact h2.2 msg2 hlk2 hst2

/-- Witness for C10 at the initial state (reachable by construction): a
processor iteration on the empty queue records no max-retry transition
and, concretely, an empty trace under the example configuration. -/
theorem reachable_c10_witness :
    (1 ≤ cfgEx.max_retry_attempts) ∧
    Ev.updStatus 0 (MessageStatus.Failed "Max retry attempts exceeded") none ∉
      (process_messages cfgEx okAdapter okAdapter 0 initState.q).2 ∧
    (process_messages cfgEx okAdapter okAdapter 0 initState.q).2 = [] := by
  have h := reachable_c10 initState SReachable.init
  exact ⟨by decide, h.2.1 cfgEx okAdapter okAdapter 0 (by decide) 0 none, by decide⟩

end Frostgate
